import Mathlib

/-!
Shallow embedding of the `CommandExecutor` shell-command dispatcher
(`executor.py`).  The embedding models:

* the POSIX path helpers used by the code (`os.path.normpath`, `join`,
  `isabs`, `basename`, `dirname`), translated from CPython's `posixpath`;
* the quote-aware tokenizer `shlex.split` (POSIX mode, as used by the code);
* the ambient filesystem as an explicit tree of directories and files,
  with the `os`/`shutil` primitives the handlers call
  (`makedirs`, `open` for write/append, `remove`, `rmtree`, `rmdir`,
  `copy2`, `copytree`, `move`);
* every per-command handler and the `run` dispatcher itself.

Exceptions that Python handlers may raise past their own `try` blocks are
modelled with `Except PyError`; the dispatcher's catch-all converts them,
exactly as `run`'s `try/except` does.  System-state queries
(`cpu`, `mem`, `ps`, `whoami`, `date`, `uptime`, `~` expansion) read from an
ambient-environment record `SysEnv`.  `run` returns `none` exactly on the
one code path where the Python code would let an exception escape to the
caller (`parts[0]` on an empty token list, shown unreachable below).
-/

/-- Characters stripped by Python `str.strip()` (ASCII whitespace). -/
def pyIsSpace (c : Char) : Bool :=
  c == ' ' || c == '\t' || c == '\n' || c == '\r' || c == '\x0b' || c == '\x0c'

/-- Python `str.strip()`. -/
def pyStrip (s : String) : String :=
  String.mk (((s.data.dropWhile pyIsSpace).reverse.dropWhile pyIsSpace).reverse)

/-- Whitespace characters of `shlex` (`shlex.whitespace`). -/
def shWs (c : Char) : Bool :=
  c == ' ' || c == '\t' || c == '\r' || c == '\n'

/-- Lexer mode of the `shlex` state machine: outside quotes, inside
single quotes, inside double quotes. -/
inductive LexMode
  | norm
  | sq
  | dq
deriving DecidableEq

/-- Finish the current (reversed) token accumulator. -/
def mkTok (acc : List Char) : String :=
  String.mk acc.reverse

/-- Core of `shlex.split` (POSIX mode, `whitespace_split=True`,
no comments), translated from CPython's `shlex.read_token`:
whitespace separates tokens, single quotes are literal runs,
double quotes allow `\"` and `\\` escapes, a backslash outside quotes
escapes the next character; unterminated quotes and a trailing escape
raise `ValueError` with the messages below.  The accumulator is `none`
when no token has been started, and holds the token's characters in
reverse otherwise. -/
def shlexGo : LexMode → List Char → Option (List Char) → Except String (List String)
  | .norm, [], none => .ok []
  | .norm, [], some acc => .ok [mkTok acc]
  | .norm, c :: cs, acc =>
    if shWs c then
      match acc with
      | none => shlexGo .norm cs none
      | some a => (shlexGo .norm cs none).map (fun ts => mkTok a :: ts)
    else if c = '\'' then shlexGo .sq cs (some (acc.getD []))
    else if c = '"' then shlexGo .dq cs (some (acc.getD []))
    else if c = '\\' then
      match cs with
      | [] => .error "No escaped character"
      | d :: ds => shlexGo .norm ds (some (d :: acc.getD []))
    else shlexGo .norm cs (some (c :: acc.getD []))
  | .sq, [], _ => .error "No closing quotation"
  | .sq, c :: cs, acc =>
    if c = '\'' then shlexGo .norm cs acc
    else shlexGo .sq cs (some (c :: acc.getD []))
  | .dq, [], _ => .error "No closing quotation"
  | .dq, c :: cs, acc =>
    if c = '"' then shlexGo .norm cs acc
    else if c = '\\' then
      match cs with
      | [] => .error "No escaped character"
      | d :: ds =>
        if d = '"' ∨ d = '\\' then shlexGo .dq ds (some (d :: acc.getD []))
        else shlexGo .dq ds (some (d :: '\\' :: acc.getD []))
    else shlexGo .dq cs (some (c :: acc.getD []))

/-- Python `shlex.split` as called by `run`. -/
def shlex_split (s : String) : Except String (List String) :=
  shlexGo .norm s.data none

/-- Python `str.split(sep)` for a single separator character
(keeps empty fields). -/
def splitChar (sep : Char) : List Char → List (List Char)
  | [] => [[]]
  | c :: cs =>
    match splitChar sep cs with
    | [] => [[]]
    | t :: ts => if c = sep then [] :: t :: ts else (c :: t) :: ts

/-- Python `sep.join(...)` on character lists. -/
def joinChar (sep : Char) : List (List Char) → List Char
  | [] => []
  | [t] => t
  | t :: ts => t ++ sep :: joinChar sep ts

/-- The leading-slash count computed by `posixpath.normpath`
(`initial_slashes`): `startswith('/')` gives 1, upgraded to 2 when the
path starts with exactly two slashes (`startswith('//') and not
startswith('///')`). -/
def slashCount3 (cs : List Char) : Nat :=
  if cs.take 1 = ['/'] then
    (if cs.take 2 = ['/', '/'] ∧ cs.take 3 ≠ ['/', '/', '/'] then 2 else 1)
  else 0

/-- The component loop of `posixpath.normpath`; the accumulator holds the
components processed so far in reverse (its head is `new_comps[-1]`). -/
def normFold (slashed : Bool) : List (List Char) → List (List Char) → List (List Char)
  | [], acc => acc
  | comp :: rest, acc =>
    if comp = [] ∨ comp = ['.'] then normFold slashed rest acc
    else if comp ≠ ['.', '.'] ∨ (slashed = false ∧ acc = []) ∨ acc.head? = some ['.', '.'] then
      normFold slashed rest (comp :: acc)
    else
      match acc with
      | [] => normFold slashed rest []
      | _ :: as => normFold slashed rest as

/-- `posixpath.normpath`. -/
def normpath (p : String) : String :=
  if p = "" then "." else
  let cs := p.data
  let k := slashCount3 cs
  let nc := (normFold (decide (0 < k)) (splitChar '/' cs) []).reverse
  let res := List.replicate k '/' ++ joinChar '/' nc
  if res = [] then "." else String.mk res

/-- `posixpath.isabs` (`s.startswith('/')`). -/
def isabs (s : String) : Bool :=
  s.data.take 1 = ['/']

/-- `posixpath.join` for two arguments. -/
def joinpath (a b : String) : String :=
  if isabs b then b
  else if a = "" ∨ a.data.getLast? = some '/' then String.mk (a.data ++ b.data)
  else String.mk (a.data ++ '/' :: b.data)

/-- `posixpath.basename`: the part after the last slash. -/
def basename (p : String) : String :=
  String.mk ((p.data.reverse.takeWhile (· != '/')).reverse)

/-- `posixpath.dirname`: everything before the last slash, with trailing
slashes stripped unless the result is all slashes. -/
def dirname (p : String) : String :=
  let head := (p.data.reverse.dropWhile (· != '/')).reverse
  if head = [] then ""
  else if head.all (· == '/') then String.mk head
  else String.mk ((head.reverse.dropWhile (· == '/')).reverse)

/-- `CommandExecutor._path_resolve`: absolute paths are normalized as
they are, relative ones are joined to the working directory first. -/
def _path_resolve (path cwd : String) : String :=
  if isabs path then normpath path
  else normpath (joinpath cwd path)

/-- A node of the modelled filesystem: a regular file with its text
content, or a directory with a list of named children. -/
inductive Node
  | file (content : String)
  | dir (entries : List (String × Node))

/-- Find a directory entry by name. -/
def findEntry : List (String × Node) → String → Option Node
  | [], _ => none
  | (k, w) :: es, name => if k = name then some w else findEntry es name

/-- Replace a named entry, or append it at the end when absent. -/
def upsert : List (String × Node) → String → Node → List (String × Node)
  | [], name, v => [(name, v)]
  | (k, w) :: es, name, v =>
    if k = name then (k, v) :: es else (k, w) :: upsert es name v

/-- Remove a named entry. -/
def removeEntry : List (String × Node) → String → List (String × Node)
  | [], _ => []
  | (k, w) :: es, name => if k = name then es else (k, w) :: removeEntry es name

/-- Follow a component path down the tree. -/
def lookupN : Node → List String → Option Node
  | n, [] => some n
  | .file _, _ :: _ => none
  | .dir es, name :: rest =>
    match findEntry es name with
    | some child => lookupN child rest
    | none => none

/-- Write `v` at the component path: every intermediate component must
exist as a directory; the final component is replaced or created. -/
def setPath : Node → List String → Node → Option Node
  | _, [], v => some v
  | .file _, _ :: _, _ => none
  | .dir es, name :: rest, v =>
    match findEntry es name with
    | some child =>
      (setPath child rest v).map (fun c => Node.dir (upsert es name c))
    | none =>
      if rest = [] then some (Node.dir (es ++ [(name, v)]))
      else none

/-- Remove the node at the component path (which must be nonempty
and exist). -/
def removePath : Node → List String → Option Node
  | _, [] => none
  | .file _, _ :: _ => none
  | .dir es, [name] =>
    if (findEntry es name).isSome then some (Node.dir (removeEntry es name)) else none
  | .dir es, name :: rest =>
    match findEntry es name with
    | some child => (removePath child rest).map (fun c => Node.dir (upsert es name c))
    | none => none

/-- Split an (already resolved) path string into filesystem components. -/
def pathComps (s : String) : List String :=
  ((splitChar '/' s.data).filter (fun l => !l.isEmpty)).map (fun l => String.mk l)

/-- `os.path.exists` against the filesystem model. -/
def pyExists (fs : Node) (p : String) : Bool :=
  (lookupN fs (pathComps p)).isSome

/-- `os.path.isdir` against the filesystem model. -/
def pyIsDir (fs : Node) (p : String) : Bool :=
  match lookupN fs (pathComps p) with
  | some (.dir _) => true
  | _ => false

/-- `os.path.isfile` against the filesystem model. -/
def pyIsFile (fs : Node) (p : String) : Bool :=
  match lookupN fs (pathComps p) with
  | some (.file _) => true
  | _ => false

/-- Content of the file at `p`, when it is a file. -/
def readFileN (fs : Node) (p : String) : Option String :=
  match lookupN fs (pathComps p) with
  | some (.file c) => some c
  | _ => none

/-- `os.listdir` against the filesystem model. -/
def listdirN (fs : Node) (p : String) : List String :=
  match lookupN fs (pathComps p) with
  | some (.dir es) => es.map (fun e => e.1)
  | _ => []

/-- Exceptions a handler can raise past its own error handling; `msg`
stands in for Python's `str(e)` (the exact OS message text is ambient). -/
inductive PyError
  | fileExists
  | notADirectory
  | isADirectory
  | fileNotFound
  | indexError
  | other (s : String)
deriving DecidableEq

/-- Stand-in for Python's `str(e)` on the modelled exceptions. -/
def PyError.msg : PyError → String
  | .fileExists => "File exists"
  | .notADirectory => "Not a directory"
  | .isADirectory => "Is a directory"
  | .fileNotFound => "No such file or directory"
  | .indexError => "list index out of range"
  | .other s => s

/-- `os.makedirs`: create every missing component as a directory.
With `eok = false` an existing final component raises `FileExistsError`
(as does an existing final file even with `eok = true`); a file in an
intermediate position raises `NotADirectoryError`, in which case nothing
has been created (CPython checks before creating anything below it). -/
def makedirsAux (eok : Bool) : List String → Node → Except PyError Node
  | [], n => if eok then .ok n else .error .fileExists
  | [name], .dir es =>
    match findEntry es name with
    | some (.dir _) => if eok then .ok (.dir es) else .error .fileExists
    | some (.file _) => .error .fileExists
    | none => .ok (.dir (es ++ [(name, .dir [])]))
  | [_], .file _ => .error .notADirectory
  | name :: rest, .dir es =>
    match findEntry es name with
    | some child => (makedirsAux eok rest child).map (fun c => Node.dir (upsert es name c))
    | none => (makedirsAux eok rest (.dir [])).map (fun c => Node.dir (upsert es name c))
  | _ :: _, .file _ => .error .notADirectory

/-- `os.makedirs` on a path string. -/
def makedirs (fs : Node) (p : String) (eok : Bool) : Except PyError Node :=
  makedirsAux eok (pathComps p) fs

/-- `open(p, "w")` followed by writing `content`: the parent must exist
as a directory and the target must not be a directory. -/
def openWrite (fs : Node) (p : String) (content : String) : Except PyError Node :=
  let comps := pathComps p
  match comps.getLast? with
  | none => .error .isADirectory
  | some _ =>
    match lookupN fs comps.dropLast with
    | some (.dir _) =>
      match lookupN fs comps with
      | some (.dir _) => .error .isADirectory
      | _ =>
        match setPath fs comps (.file content) with
        | some fs' => .ok fs'
        | none => .error .fileNotFound
    | some (.file _) => .error .notADirectory
    | none => .error .fileNotFound

/-- `open(p, "a")` followed by writing `content`: appends to an existing
file, creates the file when absent (parent must exist as a directory). -/
def openAppend (fs : Node) (p : String) (content : String) : Except PyError Node :=
  let comps := pathComps p
  match comps.getLast? with
  | none => .error .isADirectory
  | some _ =>
    match lookupN fs comps.dropLast with
    | some (.dir _) =>
      match lookupN fs comps with
      | some (.dir _) => .error .isADirectory
      | some (.file c0) =>
        match setPath fs comps (.file (c0 ++ content)) with
        | some fs' => .ok fs'
        | none => .error .fileNotFound
      | none =>
        match setPath fs comps (.file content) with
        | some fs' => .ok fs'
        | none => .error .fileNotFound
    | some (.file _) => .error .notADirectory
    | none => .error .fileNotFound

/-- The result 4-tuple returned by every command: stdout, stderr, the
new working directory (`none` models Python's literal `None` returned by
`cpu`/`mem`/`ps`), and the exit code. -/
structure RunResult where
  out : String
  err : String
  cwd : Option String
  exit : Nat
deriving DecidableEq

/-- Ambient system state read by the non-filesystem commands; each field
stands for one external query the code performs. -/
structure SysEnv where
  userEnv : Option String
  home : String
  dateStr : String
  upSecs : Nat
  cpuStr : String
  memUsed : Nat
  memTotal : Nat
  memPercent : String
  psLines : List String

/-- Separator-joined list of strings (Python `sep.join`). -/
def joinSep (sep : String) : List String → String
  | [] => ""
  | [x] => x
  | x :: xs => x ++ sep ++ joinSep sep xs

/-- Stable ascending insertion of a string into a sorted list. -/
def insertStr (x : String) : List String → List String
  | [] => [x]
  | y :: ys => if y < x then y :: insertStr x ys else x :: y :: ys

/-- Python `sorted` on strings (stable, ascending). -/
def sortStr (l : List String) : List String :=
  l.foldr insertStr []

/-- Size reported by `os.path.getsize` for a node (file sizes are the
UTF-8 byte counts; the size of a directory block is ambient). -/
def nodeSize : Node → Nat
  | .file c => c.utf8ByteSize
  | .dir _ => 4096

/-- `os.path.getsize` at a path (missing path sizes are ambient). -/
def nodeSizeAt (fs : Node) (p : String) : Nat :=
  match lookupN fs (pathComps p) with
  | some n => nodeSize n
  | none => 0

/-- Right-aligned width-8 decimal formatting (`f"{size:8d}"`). -/
def pad8 (n : Nat) : String :=
  let s := toString n
  if s.length < 8 then String.mk (List.replicate (8 - s.length) ' ') ++ s else s

/-- Python `readlines`: split keeping the newline terminators. -/
def readlinesAux : List Char → List Char → List String
  | [], [] => []
  | [], acc => [String.mk acc.reverse]
  | c :: cs, acc =>
    if c = '\n' then String.mk (acc.reverse ++ ['\n']) :: readlinesAux cs []
    else readlinesAux cs (c :: acc)

/-- Python `f.readlines()` on a file content. -/
def readlines (s : String) : List String :=
  readlinesAux s.data []

/-- First position of `x` in the list (Python `list.index`; only used
under a membership check). -/
def pyIndex (x : String) : List String → Nat
  | [] => 0
  | y :: ys => if y = x then 0 else pyIndex x ys + 1

/-- The listing target of `_ls`: `cwd` by default, `args[1]` after `-l`,
else `args[0]`. -/
def lsTarget (args : List String) (cwd : String) : String :=
  match args with
  | [] => cwd
  | a :: rest =>
    if a = "-l" then
      match rest with
      | [] => cwd
      | b :: _ => _path_resolve b cwd
    else _path_resolve a cwd

/-- `CommandExecutor._ls`. -/
def _ls (args : List String) (cwd : String) (fs : Node) : Except PyError RunResult × Node :=
  let target := lsTarget args cwd
  if ¬ pyExists fs target then
    (.ok ⟨"", "ls: cannot access '" ++ target ++ "': No such file or directory\n", some cwd, 2⟩, fs)
  else if pyIsFile fs target then
    (.ok ⟨basename target ++ "\n", "", some cwd, 0⟩, fs)
  else
    let entries := sortStr (listdirN fs target)
    if args.head? = some "-l" then
      let lines := entries.map (fun e => pad8 (nodeSizeAt fs (joinpath target e)) ++ " " ++ e)
      (.ok ⟨joinSep "\n" lines ++ (if lines.isEmpty then "" else "\n"), "", some cwd, 0⟩, fs)
    else
      (.ok ⟨joinSep "  " entries ++ "\n", "", some cwd, 0⟩, fs)

/-- `CommandExecutor._cd`; `home` models `os.path.expanduser("~")`.
When called with no argument and the target check fails, the Python code
evaluates `args[0]` and raises `IndexError`. -/
def _cd (args : List String) (cwd home : String) (fs : Node) : Except PyError RunResult × Node :=
  let new := match args with
    | [] => home
    | a :: _ => _path_resolve a cwd
  if ¬ pyExists fs new then
    match args with
    | [] => (.error .indexError, fs)
    | a :: _ => (.ok ⟨"", "cd: " ++ a ++ ": No such file or directory\n", some cwd, 1⟩, fs)
  else if ¬ pyIsDir fs new then
    match args with
    | [] => (.error .indexError, fs)
    | a :: _ => (.ok ⟨"", "cd: " ++ a ++ ": Not a directory\n", some cwd, 1⟩, fs)
  else (.ok ⟨"", "", some new, 0⟩, fs)

/-- Loop body of `_mkdir`: `os.makedirs(p, exist_ok=False)` per argument,
catching only `FileExistsError`. -/
def mkdirLoop : List String → String → Node → Except PyError RunResult × Node
  | [], cwd, fs => (.ok ⟨"", "", some cwd, 0⟩, fs)
  | a :: rest, cwd, fs =>
    match makedirs fs (_path_resolve a cwd) false with
    | .ok fs' => mkdirLoop rest cwd fs'
    | .error .fileExists =>
      (.ok ⟨"", "mkdir: cannot create directory '" ++ a ++ "': File exists\n", some cwd, 1⟩, fs)
    | .error e => (.error e, fs)

/-- `CommandExecutor._mkdir`. -/
def _mkdir (args : List String) (cwd : String) (fs : Node) : Except PyError RunResult × Node :=
  if args = [] then (.ok ⟨"", "mkdir: missing operand\n", some cwd, 2⟩, fs)
  else mkdirLoop args cwd fs

/-- The recursive-flag spellings accepted by `_rm`. -/
def rmFlag (a : String) : Bool :=
  a == "-r" || a == "-rf" || a == "-fr"

/-- Loop body of `_rm`: `shutil.rmtree` on directories (recursive only),
`os.remove` on files. -/
def rmLoop (rec : Bool) : List String → String → Node → Except PyError RunResult × Node
  | [], cwd, fs => (.ok ⟨"", "", some cwd, 0⟩, fs)
  | p :: rest, cwd, fs =>
    let rp := _path_resolve p cwd
    if ¬ pyExists fs rp then
      (.ok ⟨"", "rm: cannot remove '" ++ p ++ "': No such file or directory\n", some cwd, 1⟩, fs)
    else if pyIsDir fs rp && !rec then
      (.ok ⟨"", "rm: cannot remove '" ++ p ++ "': Is a directory\n", some cwd, 1⟩, fs)
    else
      match removePath fs (pathComps rp) with
      | some fs' => rmLoop rec rest cwd fs'
      | none => (.error (.other "Device or resource busy"), fs)

/-- `CommandExecutor._rm`. -/
def _rm (args : List String) (cwd : String) (fs : Node) : Except PyError RunResult × Node :=
  if args = [] then (.ok ⟨"", "rm: missing operand\n", some cwd, 2⟩, fs)
  else
    let recursive := args.any rmFlag
    let paths := args.filter (fun a => !rmFlag a)
    if paths = [] then (.ok ⟨"", "rm: missing path\n", some cwd, 2⟩, fs)
    else rmLoop recursive paths cwd fs

/-- Loop body of `_rmdir`: `os.rmdir`, any `OSError` (non-empty target,
busy root) reported as "Directory not empty". -/
def rmdirLoop : List String → String → Node → Except PyError RunResult × Node
  | [], cwd, fs => (.ok ⟨"", "", some cwd, 0⟩, fs)
  | a :: rest, cwd, fs =>
    let path := _path_resolve a cwd
    if ¬ pyExists fs path then
      (.ok ⟨"", "rmdir: failed to remove '" ++ a ++ "': No such file or directory\n", some cwd, 1⟩, fs)
    else if ¬ pyIsDir fs path then
      (.ok ⟨"", "rmdir: failed to remove '" ++ a ++ "': Not a directory\n", some cwd, 1⟩, fs)
    else
      match lookupN fs (pathComps path) with
      | some (.dir []) =>
        match removePath fs (pathComps path) with
        | some fs' => rmdirLoop rest cwd fs'
        | none =>
          (.ok ⟨"", "rmdir: failed to remove '" ++ a ++ "': Directory not empty\n", some cwd, 1⟩, fs)
      | _ =>
        (.ok ⟨"", "rmdir: failed to remove '" ++ a ++ "': Directory not empty\n", some cwd, 1⟩, fs)

/-- `CommandExecutor._rmdir`. -/
def _rmdir (args : List String) (cwd : String) (fs : Node) : Except PyError RunResult × Node :=
  if args = [] then (.ok ⟨"", "rmdir: missing operand\n", some cwd, 2⟩, fs)
  else rmdirLoop args cwd fs

/-- `CommandExecutor._echo`: `>` is looked for first, anywhere in the
argument list; the token right after it is the target, later tokens are
ignored; all failures inside a redirection (including the `IndexError`
from a missing target) are caught as "echo: redirection error". -/
def _echo (args : List String) (cwd : String) (fs : Node) : Except PyError RunResult × Node :=
  if ">" ∈ args then
    let idx := pyIndex ">" args
    let text := joinSep " " (args.take idx)
    match args.get? (idx + 1) with
    | none =>
      (.ok ⟨"", "echo: redirection error: " ++ PyError.indexError.msg ++ "\n", some cwd, 1⟩, fs)
    | some t =>
      match openWrite fs (_path_resolve t cwd) (text ++ "\n") with
      | .ok fs' => (.ok ⟨"", "", some cwd, 0⟩, fs')
      | .error e => (.ok ⟨"", "echo: redirection error: " ++ e.msg ++ "\n", some cwd, 1⟩, fs)
  else if ">>" ∈ args then
    let idx := pyIndex ">>" args
    let text := joinSep " " (args.take idx)
    match args.get? (idx + 1) with
    | none =>
      (.ok ⟨"", "echo: redirection error: " ++ PyError.indexError.msg ++ "\n", some cwd, 1⟩, fs)
    | some t =>
      match openAppend fs (_path_resolve t cwd) (text ++ "\n") with
      | .ok fs' => (.ok ⟨"", "", some cwd, 0⟩, fs')
      | .error e => (.ok ⟨"", "echo: redirection error: " ++ e.msg ++ "\n", some cwd, 1⟩, fs)
  else (.ok ⟨joinSep " " args ++ "\n", "", some cwd, 0⟩, fs)

/-- Loop body of `_cat`, accumulating the file contents in reverse. -/
def catLoop : List String → String → Node → List String → RunResult
  | [], cwd, _, acc => ⟨joinSep "\n" acc.reverse, "", some cwd, 0⟩
  | a :: rest, cwd, fs, acc =>
    let p := _path_resolve a cwd
    if ¬ pyExists fs p then
      ⟨"", "cat: " ++ a ++ ": No such file or directory\n", some cwd, 1⟩
    else if pyIsDir fs p then
      ⟨"", "cat: " ++ a ++ ": Is a directory\n", some cwd, 1⟩
    else
      catLoop rest cwd fs ((readFileN fs p).getD "" :: acc)

/-- `CommandExecutor._cat`. -/
def _cat (args : List String) (cwd : String) (fs : Node) : Except PyError RunResult × Node :=
  if args = [] then (.ok ⟨"", "cat: missing file operand\n", some cwd, 2⟩, fs)
  else (.ok (catLoop args cwd fs []), fs)

/-- `CommandExecutor._head`. -/
def _head (args : List String) (cwd : String) (fs : Node) : Except PyError RunResult × Node :=
  match args with
  | [] => (.ok ⟨"", "head: missing file operand\n", some cwd, 2⟩, fs)
  | a :: _ =>
    let path := _path_resolve a cwd
    if ¬ pyExists fs path then
      (.ok ⟨"", "head: " ++ a ++ ": No such file or directory\n", some cwd, 1⟩, fs)
    else if pyIsDir fs path then
      (.ok ⟨"", "head: " ++ a ++ ": Is a directory\n", some cwd, 1⟩, fs)
    else
      (.ok ⟨joinSep "" ((readlines ((readFileN fs path).getD "")).take 10), "", some cwd, 0⟩, fs)

/-- `CommandExecutor._tail`. -/
def _tail (args : List String) (cwd : String) (fs : Node) : Except PyError RunResult × Node :=
  match args with
  | [] => (.ok ⟨"", "tail: missing file operand\n", some cwd, 2⟩, fs)
  | a :: _ =>
    let path := _path_resolve a cwd
    if ¬ pyExists fs path then
      (.ok ⟨"", "tail: " ++ a ++ ": No such file or directory\n", some cwd, 1⟩, fs)
    else if pyIsDir fs path then
      (.ok ⟨"", "tail: " ++ a ++ ": Is a directory\n", some cwd, 1⟩, fs)
    else
      let lines := readlines ((readFileN fs path).getD "")
      (.ok ⟨joinSep "" (lines.drop (lines.length - 10)), "", some cwd, 0⟩, fs)

/-- Loop body of `_touch`: make the parent directories when the parent is
missing, then `open(p, "a")`; errors propagate with the mutations made so
far kept. -/
def touchLoop : List String → String → Node → Except PyError RunResult × Node
  | [], cwd, fs => (.ok ⟨"", "", some cwd, 0⟩, fs)
  | a :: rest, cwd, fs =>
    let p := _path_resolve a cwd
    let dirp := dirname p
    match (if dirp != "" && !pyExists fs dirp then makedirs fs dirp true else .ok fs) with
    | .error e => (.error e, fs)
    | .ok fs1 =>
      match openAppend fs1 p "" with
      | .error e => (.error e, fs1)
      | .ok fs2 => touchLoop rest cwd fs2

/-- `CommandExecutor._touch`. -/
def _touch (args : List String) (cwd : String) (fs : Node) : Except PyError RunResult × Node :=
  if args = [] then (.ok ⟨"", "touch: missing file operand\n", some cwd, 2⟩, fs)
  else touchLoop args cwd fs

/-- Model of `os.rename` for non-overlapping source and destination:
detach the source subtree and attach it at the destination. -/
def renameN (fs : Node) (src dst : String) : Except PyError Node :=
  match lookupN fs (pathComps src) with
  | none => .error .fileNotFound
  | some n =>
    match removePath fs (pathComps src) with
    | none => .error .fileNotFound
    | some fs1 =>
      match setPath fs1 (pathComps dst) n with
      | some fs2 => .ok fs2
      | none => .error .fileNotFound

/-- Model of `shutil.move`: moving onto an existing directory entry of a
directory destination raises; otherwise the source subtree is renamed. -/
def shutilMove (fs : Node) (src dst : String) : Except PyError Node :=
  if pyIsDir fs dst then
    if pyExists fs (joinpath dst (basename src)) then
      .error (.other ("Destination path '" ++ joinpath dst (basename src) ++ "' already exists"))
    else renameN fs src (joinpath dst (basename src))
  else renameN fs src dst

/-- Loop body of `_mv`; any exception from `shutil.move` is caught by
`_mv`'s own handler as "mv error". -/
def mvLoop : List String → String → String → Node → RunResult × Node
  | [], _, cwd, fs => (⟨"", "", some cwd, 0⟩, fs)
  | s :: rest, dest, cwd, fs =>
    if ¬ pyExists fs s then
      (⟨"", "mv: cannot stat '" ++ s ++ "': No such file or directory\n", some cwd, 1⟩, fs)
    else
      match (if pyIsDir fs dest then shutilMove fs s (joinpath dest (basename s))
             else shutilMove fs s dest) with
      | .ok fs' => mvLoop rest dest cwd fs'
      | .error e => (⟨"", "mv error: " ++ e.msg ++ "\n", some cwd, 1⟩, fs)

/-- `CommandExecutor._mv`. -/
def _mv (args : List String) (cwd : String) (fs : Node) : Except PyError RunResult × Node :=
  if args.length < 2 then (.ok ⟨"", "mv: missing file operands\n", some cwd, 2⟩, fs)
  else
    let srcs := args.dropLast.map (fun a => _path_resolve a cwd)
    let dest := _path_resolve (args.getLast?.getD "") cwd
    if srcs.length > 1 ∧ ¬ pyIsDir fs dest then
      (.ok ⟨"", "mv: target is not a directory\n", some cwd, 1⟩, fs)
    else
      let r := mvLoop srcs dest cwd fs
      (.ok r.1, r.2)

/-- Model of `shutil.copy2` on a regular file (copying a file onto
itself raises `SameFileError`). -/
def copy2N (fs : Node) (src dst : String) : Except PyError Node :=
  if pathComps src = pathComps dst then
    .error (.other ("'" ++ src ++ "' and '" ++ dst ++ "' are the same file"))
  else
    match lookupN fs (pathComps src) with
    | some (.file c) => openWrite fs dst c
    | _ => .error .fileNotFound

/-- Model of `shutil.copytree`: create the destination (and its missing
parents) with `os.makedirs(dst)`, then copy the source subtree into it. -/
def copytreeN (fs : Node) (src dst : String) : Except PyError Node :=
  match lookupN fs (pathComps src) with
  | none => .error .fileNotFound
  | some n =>
    match makedirs fs dst false with
    | .error e => .error e
    | .ok fs1 =>
      match setPath fs1 (pathComps dst) n with
      | some fs2 => .ok fs2
      | none => .error .fileNotFound

/-- Loop body of `_cp`; any exception from the copy primitives is caught
by `_cp`'s own handler as "cp error". -/
def cpLoop (recursive : Bool) : List String → String → String → Node → RunResult × Node
  | [], _, cwd, fs => (⟨"", "", some cwd, 0⟩, fs)
  | s :: rest, dest, cwd, fs =>
    if ¬ pyExists fs s then
      (⟨"", "cp: cannot stat '" ++ s ++ "': No such file or directory\n", some cwd, 1⟩, fs)
    else if pyIsDir fs s then
      if ¬ recursive then
        (⟨"", "cp: -r not specified; omitting directory '" ++ s ++ "'\n", some cwd, 1⟩, fs)
      else
        match copytreeN fs s (joinpath dest (basename s)) with
        | .ok fs' => cpLoop recursive rest dest cwd fs'
        | .error e => (⟨"", "cp error: " ++ e.msg ++ "\n", some cwd, 1⟩, fs)
    else
      match (if pyIsDir fs dest then copy2N fs s (joinpath dest (basename s))
             else copy2N fs s dest) with
      | .ok fs' => cpLoop recursive rest dest cwd fs'
      | .error e => (⟨"", "cp error: " ++ e.msg ++ "\n", some cwd, 1⟩, fs)

/-- `CommandExecutor._cp`. -/
def _cp (args : List String) (cwd : String) (fs : Node) : Except PyError RunResult × Node :=
  if args.length < 2 then (.ok ⟨"", "cp: missing file operands\n", some cwd, 2⟩, fs)
  else
    let recursive := args.any (fun a => a == "-r")
    let files := args.filter (fun a => a != "-r")
    if files.length < 2 then
      (.ok ⟨"", "cp: missing destination file operand after source\n", some cwd, 2⟩, fs)
    else
      let srcs := files.dropLast.map (fun a => _path_resolve a cwd)
      let dest := _path_resolve (files.getLast?.getD "") cwd
      if srcs.length > 1 ∧ ¬ pyIsDir fs dest then
        (.ok ⟨"", "cp: target is not a directory\n", some cwd, 1⟩, fs)
      else
        let r := cpLoop recursive srcs dest cwd fs
        (.ok r.1, r.2)

/-- `CommandExecutor._help_text`. -/
def _help_text : String :=
  "Supported commands:\n" ++
  "  pwd, ls [-l] [path], cd <path>, mkdir <name>, rmdir <name>, rm [-r] <path>\n" ++
  "  cat <file>, touch <file>, mv <src> <dest>, cp [-r] <src> <dest>\n" ++
  "  echo [text] [> file] [>> file], head <file>, tail <file>\n" ++
  "  cpu, mem, ps, whoami, date, uptime\n" ++
  "  clear, help\n"

/-- The command table inside `run`, one handler per first token. -/
def dispatch (cmd : String) (args : List String) (cwd : String) (env : SysEnv)
    (fs : Node) : Except PyError RunResult × Node :=
  if cmd = "pwd" then (.ok ⟨cwd ++ "\n", "", some cwd, 0⟩, fs)
  else if cmd = "ls" then _ls args cwd fs
  else if cmd = "cd" then _cd args cwd env.home fs
  else if cmd = "mkdir" then _mkdir args cwd fs
  else if cmd = "rm" then _rm args cwd fs
  else if cmd = "rmdir" then _rmdir args cwd fs
  else if cmd = "cat" then _cat args cwd fs
  else if cmd = "touch" then _touch args cwd fs
  else if cmd = "mv" then _mv args cwd fs
  else if cmd = "cp" then _cp args cwd fs
  else if cmd = "echo" then _echo args cwd fs
  else if cmd = "cpu" then (.ok ⟨"CPU: " ++ env.cpuStr ++ "%\n", "", none, 0⟩, fs)
  else if cmd = "mem" then
    (.ok ⟨"Memory: " ++ toString env.memUsed ++ "/" ++ toString env.memTotal ++
      " bytes (" ++ env.memPercent ++ "%)\n", "", none, 0⟩, fs)
  else if cmd = "ps" then
    (.ok ⟨joinSep "\n" ((sortStr env.psLines).take 200) ++ "\n", "", none, 0⟩, fs)
  else if cmd = "whoami" then (.ok ⟨env.userEnv.getD "user" ++ "\n", "", some cwd, 0⟩, fs)
  else if cmd = "date" then (.ok ⟨env.dateStr ++ "\n", "", some cwd, 0⟩, fs)
  else if cmd = "uptime" then
    (.ok ⟨"up " ++ toString (env.upSecs / 3600) ++ "h " ++
      toString (env.upSecs % 3600 / 60) ++ "m " ++
      toString (env.upSecs % 3600 % 60) ++ "s\n", "", some cwd, 0⟩, fs)
  else if cmd = "head" then _head args cwd fs
  else if cmd = "tail" then _tail args cwd fs
  else if cmd = "clear" then (.ok ⟨"__CLEAR__", "", some cwd, 0⟩, fs)
  else if cmd = "help" ∨ cmd = "--help" ∨ cmd = "-h" then
    (.ok ⟨_help_text, "", some cwd, 0⟩, fs)
  else (.ok ⟨"", "Command not found: " ++ cmd ++ "\n", some cwd, 127⟩, fs)

/-- `CommandExecutor.run` with an explicitly supplied working directory:
strip, reject empty input, tokenize (a `ValueError` becomes a parse
error), dispatch, and convert any exception a handler raised into the
generic error result.  The value is `none` exactly where the Python code
would evaluate `parts[0]` on an empty token list and crash — shown
unreachable by `shlex_split_ok_ne_nil` below. -/
def run (rawCmd cwd : String) (env : SysEnv) (fs : Node) : Option (RunResult × Node) :=
  let raw := pyStrip rawCmd
  if raw = "" then some (⟨"", "", some cwd, 0⟩, fs)
  else
    match shlex_split raw with
    | .error e => some (⟨"", "parse error: " ++ e, some cwd, 2⟩, fs)
    | .ok [] => none
    | .ok (cmd :: args) =>
      match dispatch cmd args cwd env fs with
      | (.ok res, fs') => some (res, fs')
      | (.error e, fs') => some (⟨"", "Error: " ++ e.msg ++ "\n", some cwd, 1⟩, fs')

/-- A fixed ambient environment used to instantiate witnesses. -/
def envW : SysEnv :=
  ⟨some "user", "/root", "2026-01-01 00:00:00", 3723, "12.5", 1024, 4096, "25.0", []⟩

instance {e a : Type} [DecidableEq e] [DecidableEq a] : DecidableEq (Except e a) := fun x y =>
  match x, y with
  | .ok u, .ok v => if h : u = v then isTrue (by rw [h]) else isFalse (by simp [h])
  | .error u, .error v => if h : u = v then isTrue (by rw [h]) else isFalse (by simp [h])
  | .ok _, .error _ => isFalse (by simp)
  | .error _, .ok _ => isFalse (by simp)

/-- A small concrete filesystem used to instantiate witnesses. -/
def fsW : Node :=
  .dir [("tmp", .dir []), ("src", .dir [("x", .file "1")]), ("d", .dir []), ("f", .file "z")]

/-! Basic lemmas about the list and string helpers. -/

theorem dropWhile_of_all (p : Char → Bool) : ∀ (l : List Char),
    (∀ c ∈ l, p c = true) → l.dropWhile p = []
  | [], _ => rfl
  | c :: cs, h => by
    simp only [List.dropWhile_cons, h c (by simp), if_true]
    exact dropWhile_of_all p cs (fun x hx => h x (by simp [hx]))

theorem pyStrip_of_all_space (s : String) (h : ∀ c ∈ s.data, pyIsSpace c = true) :
    pyStrip s = "" := by
  unfold pyStrip
  rw [dropWhile_of_all pyIsSpace s.data h]
  rfl

theorem pyIndex_append (x : String) (pre rest : List String) (h : x ∉ pre) :
    pyIndex x (pre ++ x :: rest) = pre.length := by
  induction pre with
  | nil => simp [pyIndex]
  | cons a as ih =>
    simp only [List.mem_cons, not_or] at h
    simp [pyIndex, if_neg (Ne.symm h.1), ih h.2]

theorem take_len_append (pre rest : List String) : (pre ++ rest).take pre.length = pre := by
  induction pre with
  | nil => simp
  | cons a as ih => simp [ih]

theorem get?_append_succ (pre : List String) (y : String) (rest : List String) :
    (pre ++ y :: rest).get? (pre.length + 1) = rest.get? 0 := by
  induction pre with
  | nil => simp
  | cons a as ih => simpa using ih

/-! Lemmas about the filesystem tree operations. -/

theorem findEntry_upsert (es : List (String × Node)) (name : String) (v : Node) :
    findEntry (upsert es name v) name = some v := by
  induction es with
  | nil => simp [upsert, findEntry]
  | cons e es ih =>
    by_cases h : e.1 = name
    · simp [upsert, findEntry, h]
    · simp [upsert, findEntry, h, ih]

theorem findEntry_append_none (es : List (String × Node)) (name : String) (v : Node)
    (h : findEntry es name = none) :
    findEntry (es ++ [(name, v)]) name = some v := by
  induction es with
  | nil => simp [findEntry]
  | cons e es ih =>
    by_cases he : e.1 = name
    · simp [findEntry, he] at h
    · simp only [findEntry, he, if_neg] at h ⊢
      simp [List.cons_append, findEntry, he, ih h]

theorem setPath_lookupN : ∀ (comps : List String) (n v n' : Node),
    setPath n comps v = some n' → lookupN n' comps = some v := by
  intro comps
  induction comps with
  | nil =>
    intro n v n' h
    simp only [setPath, Option.some.injEq] at h
    subst h
    cases v <;> rfl
  | cons name rest ih =>
    intro n v n' h
    cases n with
    | file c => simp [setPath] at h
    | dir es =>
      cases hf : findEntry es name with
      | some child =>
        simp only [setPath, hf, Option.map_eq_some'] at h
        obtain ⟨c, hc, hn⟩ := h
        subst hn
        simp [lookupN, findEntry_upsert, ih child v c hc]
      | none =>
        simp only [setPath, hf] at h
        by_cases hr : rest = []
        · subst hr
          simp only [if_true, Option.some.injEq] at h
          subst h
          simp [lookupN, findEntry_append_none es name v hf]
        · simp [hr] at h

theorem setPath_isSome_of_lookupN : ∀ (comps : List String) (n x v : Node),
    lookupN n comps = some x → ∃ n', setPath n comps v = some n' := by
  intro comps
  induction comps with
  | nil => intro n x v _; cases n <;> exact ⟨v, rfl⟩
  | cons name rest ih =>
    intro n x v h
    cases n with
    | file c => simp [lookupN] at h
    | dir es =>
      cases hf : findEntry es name with
      | none => simp [lookupN, hf] at h
      | some child =>
        simp only [lookupN, hf] at h
        obtain ⟨c, hc⟩ := ih child x v h
        exact ⟨.dir (upsert es name c), by simp [setPath, hf, hc]⟩

theorem lookupN_append_dir : ∀ (p : List String) (x : String) (n v : Node),
    lookupN n (p ++ [x]) = some v → ∃ es, lookupN n p = some (.dir es) := by
  intro p
  induction p with
  | nil =>
    intro x n v h
    cases n with
    | file c => simp [lookupN] at h
    | dir es => exact ⟨es, rfl⟩
  | cons a as ih =>
    intro x n v h
    cases n with
    | file c => simp [lookupN] at h
    | dir es =>
      cases hf : findEntry es a with
      | none => simp [List.cons_append, lookupN, hf] at h
      | some child =>
        simp only [List.cons_append, lookupN, hf] at h ⊢
        exact ih x child v h

theorem openWrite_lookupN (fs : Node) (p c : String) (fs' : Node)
    (h : openWrite fs p c = .ok fs') :
    lookupN fs' (pathComps p) = some (.file c) := by
  simp only [openWrite] at h
  repeat' split at h
  all_goals first
    | exact Except.noConfusion h
    | (injection h with h1; subst h1; exact setPath_lookupN _ _ _ _ (by assumption))

/-! C3 -/

/-- C3: `_path_resolve` maps an absolute path to `normpath p` regardless of
the working directory, and a relative path to `normpath (join cwd p)`; it is
a total pure function with no error cases. -/
theorem c3_path_resolve_spec (p cwd : String) :
    (isabs p = true → _path_resolve p cwd = normpath p) ∧
    (isabs p = false → _path_resolve p cwd = normpath (joinpath cwd p)) := by
  constructor <;> intro h <;> simp [_path_resolve, h]

/-- Witness for C3 at concrete absolute and relative inputs. -/
theorem c3_path_resolve_spec_witness :
    (isabs "/a/.." = true ∧ _path_resolve "/a/.." "/x" = normpath "/a/..") ∧
    (isabs "f.txt" = false ∧ _path_resolve "f.txt" "/tmp" = normpath (joinpath "/tmp" "f.txt")) :=
  ⟨⟨by decide, (c3_path_resolve_spec "/a/.." "/x").1 (by decide)⟩,
   ⟨by decide, (c3_path_resolve_spec "f.txt" "/tmp").2 (by decide)⟩⟩

/-! C9 -/

/-- C9: an empty or whitespace-only raw line yields `("", "", cwd, 0)` with
the filesystem untouched, before any handler can run. -/
theorem c9_blank_input (raw cwd : String) (env : SysEnv) (fs : Node)
    (h : ∀ c ∈ raw.data, pyIsSpace c = true) :
    run raw cwd env fs = some (⟨"", "", some cwd, 0⟩, fs) := by
  simp [run, pyStrip_of_all_space raw h]

/-- Witness for C9 on a whitespace-only line. -/
theorem c9_blank_input_witness :
    run " \t " "/tmp" envW fsW = some (⟨"", "", some "/tmp", 0⟩, fsW) :=
  c9_blank_input " \t " "/tmp" envW fsW (by decide)

/-! C7 -/

/-- C7: `ls` on a missing target returns exit code 2 (not 1), empty stdout,
a stderr message containing "No such file or directory", and leaves the
working directory unchanged. -/
theorem c7_ls_missing (args : List String) (cwd : String) (fs : Node)
    (h : pyExists fs (lsTarget args cwd) = false) :
    _ls args cwd fs = (.ok ⟨"", "ls: cannot access '" ++ lsTarget args cwd ++
      "': No such file or directory\n", some cwd, 2⟩, fs) := by
  simp [_ls, h]

/-- Witness for C7 on a concrete missing path. -/
theorem c7_ls_missing_witness :
    _ls ["/nope"] "/" fsW = (.ok ⟨"", "ls: cannot access '/nope': No such file or directory\n",
      some "/", 2⟩, fsW) := by
  have := c7_ls_missing ["/nope"] "/" fsW (by decide)
  simpa using this

/-! C5 -/

/-- C5: `mv` with two or more sources and a destination that is not an
existing directory reports "target is not a directory" with exit code 1,
echoes the working directory, and leaves the filesystem untouched. -/
theorem c5_mv_multi_nondir (args : List String) (cwd : String) (fs : Node)
    (h1 : 3 ≤ args.length)
    (h2 : pyIsDir fs (_path_resolve (args.getLast?.getD "") cwd) = false) :
    _mv args cwd fs = (.ok ⟨"", "mv: target is not a directory\n", some cwd, 1⟩, fs) := by
  unfold _mv
  rw [if_neg (by omega)]
  rw [if_pos ⟨by simp [List.length_dropLast]; omega, by simp [h2]⟩]

/-- Witness for C5: three sources, a plain-file destination. -/
theorem c5_mv_multi_nondir_witness :
    _mv ["a", "b", "c", "/f"] "/" fsW =
      (.ok ⟨"", "mv: target is not a directory\n", some "/", 1⟩, fsW) :=
  c5_mv_multi_nondir ["a", "b", "c", "/f"] "/" fsW (by decide) (by decide)

/-! C10 -/

/-- C10: `echo` redirection uses the first `>` token found anywhere in the
argument list (the `>` branch is checked before `>>`): the text before it is
written, the single token after it names the target, later tokens are
silently ignored with exit 0; when `>` — or, in the append branch, `>>` —
is the final token the handler returns exit 1 with an
"echo: redirection error" message and creates nothing. -/
theorem c10_echo_redirect (pre : List String) (target : String) (post : List String)
    (cwd : String) (fs : Node) (hp : ">" ∉ pre) :
    (∀ fs', openWrite fs (_path_resolve target cwd) (joinSep " " pre ++ "\n") = .ok fs' →
      _echo (pre ++ ">" :: target :: post) cwd fs = (.ok ⟨"", "", some cwd, 0⟩, fs')) ∧
    _echo (pre ++ [">"]) cwd fs =
      (.ok ⟨"", "echo: redirection error: list index out of range\n", some cwd, 1⟩, fs) ∧
    (">>" ∉ pre →
      _echo (pre ++ [">>"]) cwd fs =
        (.ok ⟨"", "echo: redirection error: list index out of range\n", some cwd, 1⟩, fs)) := by
  refine ⟨?_, ?_, ?_⟩
  · intro fs' hw
    unfold _echo
    rw [if_pos (by simp)]
    simp only [pyIndex_append ">" pre (target :: post) hp,
      take_len_append pre (">" :: target :: post),
      get?_append_succ pre ">" (target :: post), List.get?, hw]
  · unfold _echo
    rw [if_pos (by simp)]
    simp only [pyIndex_append ">" pre [] hp, get?_append_succ pre ">" [], List.get?]
    simp [PyError.msg]
  · intro hp2
    unfold _echo
    rw [if_neg (by simp [hp]), if_pos (by simp)]
    simp only [pyIndex_append ">>" pre [] hp2, get?_append_succ pre ">>" [], List.get?]
    simp [PyError.msg]

/-- Witness for C10: first `>` wins, trailing junk is ignored, and a bare
trailing `>` or `>>` is a redirection error that creates nothing. -/
theorem c10_echo_redirect_witness :
    _echo (["a"] ++ ">" :: "f.txt" :: ["junk"]) "/tmp" fsW =
      (.ok ⟨"", "", some "/tmp", 0⟩,
        .dir [("tmp", .dir [("f.txt", .file "a\n")]), ("src", .dir [("x", .file "1")]),
          ("d", .dir []), ("f", .file "z")]) ∧
    _echo (["a"] ++ [">"]) "/tmp" fsW =
      (.ok ⟨"", "echo: redirection error: list index out of range\n", some "/tmp", 1⟩, fsW) ∧
    _echo (["a"] ++ [">>"]) "/tmp" fsW =
      (.ok ⟨"", "echo: redirection error: list index out of range\n", some "/tmp", 1⟩, fsW) :=
  ⟨(c10_echo_redirect ["a"] "f.txt" ["junk"] "/tmp" fsW (by decide)).1 _ rfl,
   (c10_echo_redirect ["a"] "f.txt" ["junk"] "/tmp" fsW (by decide)).2.1,
   (c10_echo_redirect ["a"] "f.txt" ["junk"] "/tmp" fsW (by decide)).2.2 (by decide)⟩

/-! C8 -/

/-- C8: a first token matching no entry of the dispatch table yields empty
stdout, stderr "Command not found: <name>\n", the input working directory,
and exit code 127. -/
theorem c8_unknown_command (raw cwd : String) (env : SysEnv) (fs : Node) (cmd : String)
    (args : List String)
    (h1 : pyStrip raw ≠ "")
    (h2 : shlex_split (pyStrip raw) = .ok (cmd :: args))
    (h3 : cmd ∉ (["pwd", "ls", "cd", "mkdir", "rm", "rmdir", "cat", "touch", "mv", "cp",
      "echo", "cpu", "mem", "ps", "whoami", "date", "uptime", "head", "tail", "clear",
      "help", "--help", "-h"] : List String)) :
    run raw cwd env fs = some (⟨"", "Command not found: " ++ cmd ++ "\n", some cwd, 127⟩, fs) := by
  simp only [List.mem_cons, List.mem_singleton, not_or] at h3
  obtain ⟨n1, n2, n3, n4, n5, n6, n7, n8, n9, n10, n11, n12, n13, n14, n15, n16, n17,
    n18, n19, n20, n21, n22, n23⟩ := h3
  simp [run, h1, h2, dispatch, n1, n2, n3, n4, n5, n6, n7, n8, n9, n10, n11, n12, n13,
    n14, n15, n16, n17, n18, n19, n20, n21, n22, n23]

/-- Witness for C8 with the unknown command `foo`. -/
theorem c8_unknown_command_witness :
    run "foo" "/tmp" envW fsW =
      some (⟨"", "Command not found: " ++ "foo" ++ "\n", some "/tmp", 127⟩, fsW) :=
  c8_unknown_command "foo" "/tmp" envW fsW "foo" [] (by decide) (by decide) (by decide)

/-! C6 -/

/-- C6: `echo "hello" > f.txt` then `cat f.txt` in the same working
directory print nothing resp. `"hello\n"`, both with exit code 0. -/
theorem c6_echo_cat_roundtrip (cwd : String) (env : SysEnv) (fs fs' : Node)
    (hw : openWrite fs (_path_resolve "f.txt" cwd) "hello\n" = .ok fs') :
    run "echo \"hello\" > f.txt" cwd env fs = some (⟨"", "", some cwd, 0⟩, fs') ∧
    run "cat f.txt" cwd env fs' = some (⟨"hello\n", "", some cwd, 0⟩, fs') := by
  constructor
  · have hs : pyStrip "echo \"hello\" > f.txt" = "echo \"hello\" > f.txt" := by decide
    have hsp : shlex_split "echo \"hello\" > f.txt" = .ok ["echo", "hello", ">", "f.txt"] := by
      decide
    simp [run, hs, hsp, dispatch, _echo, pyIndex, joinSep, List.get?, hw]
  · have hc : lookupN fs' (pathComps (_path_resolve "f.txt" cwd)) = some (.file "hello\n") :=
      openWrite_lookupN _ _ _ _ hw
    have hs2 : pyStrip "cat f.txt" = "cat f.txt" := by decide
    have hsp2 : shlex_split "cat f.txt" = .ok ["cat", "f.txt"] := by decide
    simp [run, hs2, hsp2, dispatch, _cat, catLoop, pyExists, pyIsDir, readFileN, hc, joinSep]

/-- Witness for C6 in a concrete working directory and filesystem. -/
theorem c6_echo_cat_roundtrip_witness :
    run "echo \"hello\" > f.txt" "/tmp" envW fsW =
      some (⟨"", "", some "/tmp", 0⟩,
        .dir [("tmp", .dir [("f.txt", .file "hello\n")]), ("src", .dir [("x", .file "1")]),
          ("d", .dir []), ("f", .file "z")]) ∧
    run "cat f.txt" "/tmp" envW
        (.dir [("tmp", .dir [("f.txt", .file "hello\n")]), ("src", .dir [("x", .file "1")]),
          ("d", .dir []), ("f", .file "z")]) =
      some (⟨"hello\n", "", some "/tmp", 0⟩,
        .dir [("tmp", .dir [("f.txt", .file "hello\n")]), ("src", .dir [("x", .file "1")]),
          ("d", .dir []), ("f", .file "z")]) :=
  c6_echo_cat_roundtrip "/tmp" envW fsW _ rfl

/-! C1 -/

theorem makedirsAux_lookup : ∀ (rest : List String) (c : String) (n n' : Node) (eok : Bool),
    makedirsAux eok (c :: rest) n = .ok n' →
    ∃ es, lookupN n' (c :: rest) = some (.dir es) := by
  intro rest
  induction rest with
  | nil =>
    intro c n n' eok h
    cases n with
    | file cc => simp [makedirsAux] at h
    | dir es =>
      cases hf : findEntry es c with
      | some child =>
        cases child with
        | dir d =>
          simp only [makedirsAux, hf] at h
          cases eok with
          | true =>
            simp only [if_true, Except.ok.injEq] at h
            subst h
            exact ⟨d, by simp [lookupN, hf]⟩
          | false => simp at h
        | file _ => simp [makedirsAux, hf] at h
      | none =>
        simp only [makedirsAux, hf, Except.ok.injEq] at h
        subst h
        exact ⟨[], by simp [lookupN, findEntry_append_none es c _ hf]⟩
  | cons r rs ih =>
    intro c n n' eok h
    cases n with
    | file cc => simp [makedirsAux] at h
    | dir es =>
      cases hf : findEntry es c with
      | some child =>
        simp only [makedirsAux, hf] at h
        cases hm : makedirsAux eok (r :: rs) child with
        | error e => simp [hm, Except.map] at h
        | ok cnode =>
          simp only [hm, Except.map, Except.ok.injEq] at h
          subst h
          obtain ⟨es2, h2⟩ := ih r child cnode eok hm
          exact ⟨es2, by simp [lookupN, findEntry_upsert, h2]⟩
      | none =>
        simp only [makedirsAux, hf] at h
        cases hm : makedirsAux eok (r :: rs) (.dir []) with
        | error e => simp [hm, Except.map] at h
        | ok cnode =>
          simp only [hm, Except.map, Except.ok.injEq] at h
          subst h
          obtain ⟨es2, h2⟩ := ih r (.dir []) cnode eok hm
          exact ⟨es2, by simp [lookupN, findEntry_upsert, h2]⟩

/-- C1: `cp -r srcdir destdir` with an existing source directory and a
missing destination succeeds with exit 0, creates `destdir` as a
directory, and places a full copy of `srcdir`'s tree inside it (at
`destdir/basename(srcdir)`, which is where the code's
`copytree(s, join(dest, basename(s)))` call puts it). -/
theorem c1_cp_recursive_new_dest (src dst cwd : String) (fs : Node)
    (es0 : List (String × Node)) (fs1 : Node)
    (hsrcflag : src ≠ "-r") (hdstflag : dst ≠ "-r")
    (hsrc : lookupN fs (pathComps (_path_resolve src cwd)) = some (.dir es0))
    (hdst : pyExists fs (_path_resolve dst cwd) = false)
    (hcomps : pathComps (joinpath (_path_resolve dst cwd) (basename (_path_resolve src cwd))) =
      pathComps (_path_resolve dst cwd) ++ [basename (_path_resolve src cwd)])
    (hmk : makedirs fs (joinpath (_path_resolve dst cwd) (basename (_path_resolve src cwd)))
      false = .ok fs1) :
    ∃ fs2, _cp ["-r", src, dst] cwd fs = (.ok ⟨"", "", some cwd, 0⟩, fs2) ∧
      lookupN fs2 (pathComps (joinpath (_path_resolve dst cwd)
        (basename (_path_resolve src cwd)))) = some (.dir es0) ∧
      pyIsDir fs2 (_path_resolve dst cwd) = true := by
  have hJ : ∃ es, lookupN fs1 (pathComps (joinpath (_path_resolve dst cwd)
      (basename (_path_resolve src cwd)))) = some (.dir es) := by
    have hmk' := hmk
    unfold makedirs at hmk'
    rw [hcomps] at hmk' ⊢
    have hne : pathComps (_path_resolve dst cwd) ++ [basename (_path_resolve src cwd)] ≠ [] := by
      simp
    obtain ⟨c, rest, hcr⟩ := List.exists_cons_of_ne_nil hne
    rw [hcr] at hmk' ⊢
    exact makedirsAux_lookup rest c fs fs1 false hmk'
  obtain ⟨esJ, hJ⟩ := hJ
  obtain ⟨fs2, hset⟩ := setPath_isSome_of_lookupN _ fs1 _ (.dir es0) hJ
  have hlook2 : lookupN fs2 (pathComps (joinpath (_path_resolve dst cwd)
      (basename (_path_resolve src cwd)))) = some (.dir es0) :=
    setPath_lookupN _ _ _ _ hset
  refine ⟨fs2, ?_, hlook2, ?_⟩
  · have hb1 : (src != "-r") = true := bne_iff_ne.mpr hsrcflag
    have hb2 : (dst != "-r") = true := bne_iff_ne.mpr hdstflag
    have hfiles : (["-r", src, dst].filter (fun a => a != "-r")) = [src, dst] := by
      simp [List.filter, hb1, hb2]
    simp only [_cp, hfiles]
    rw [if_neg (by simp)]
    rw [if_neg (by simp)]
    rw [if_neg (by simp)]
    simp [cpLoop, copytreeN, pyExists, pyIsDir, hsrc, hmk, hset]
  · rw [hcomps] at hlook2
    obtain ⟨esD, hD⟩ := lookupN_append_dir _ _ fs2 _ hlook2
    simp [pyIsDir, hD]

/-- The filesystem produced by `makedirs` in the C1 witness. -/
def fsW1 : Node :=
  .dir [("tmp", .dir []), ("src", .dir [("x", .file "1")]), ("d", .dir []), ("f", .file "z"),
    ("dest", .dir [("src", .dir [])])]

/-- Witness for C1: copying the directory `src` of `fsW` to the missing
destination `dest`. -/
theorem c1_cp_recursive_new_dest_witness :
    ∃ fs2, _cp ["-r", "src", "dest"] "/" fsW = (.ok ⟨"", "", some "/", 0⟩, fs2) ∧
      lookupN fs2 (pathComps (joinpath (_path_resolve "dest" "/")
        (basename (_path_resolve "src" "/")))) = some (.dir [("x", .file "1")]) ∧
      pyIsDir fs2 (_path_resolve "dest" "/") = true :=
  c1_cp_recursive_new_dest "src" "dest" "/" fsW [("x", .file "1")] fsW1
    (by decide) (by decide) rfl (by decide) (by decide) rfl

/-! C2 -/

theorem shlexGo_some_ne_nil : ∀ (mode : LexMode) (cs : List Char) (acc : Option (List Char))
    (a : List Char) (l : List String), acc = some a → shlexGo mode cs acc = .ok l → l ≠ [] := by
  intro mode cs acc
  induction mode, cs, acc using shlexGo.induct with
  | case1 => intro a l ha _; exact Option.noConfusion ha
  | case2 acc =>
    intro a l _ h
    rw [shlexGo.eq_def] at h
    simp only [Except.ok.injEq] at h
    subst h
    simp
  | case3 c cs hws ih => intro a l ha _; exact Option.noConfusion ha
  | case4 c cs hws a0 ih =>
    intro a l _ h
    rw [shlexGo.eq_def] at h
    simp only [hws, if_true] at h
    cases hres : shlexGo .norm cs none with
    | error e => rw [hres] at h; simp [Except.map] at h
    | ok ts =>
      rw [hres] at h
      simp only [Except.map, Except.ok.injEq] at h
      subst h
      simp
  | case5 cs acc hc ih =>
    intro a l _ h
    rw [shlexGo.eq_def] at h
    simp only [hc, if_false, if_pos rfl] at h
    exact ih (acc.getD []) l rfl h
  | case6 cs acc hc1 hc2 ih =>
    intro a l _ h
    rw [shlexGo.eq_def] at h
    simp only [hc1, hc2, if_false, if_pos rfl] at h
    exact ih (acc.getD []) l rfl h
  | case7 acc hc1 hc2 hc3 =>
    intro a l _ h
    rw [shlexGo.eq_def] at h
    simp [hc1, hc2, hc3] at h
  | case8 acc d ds hc1 hc2 hc3 ih =>
    intro a l _ h
    rw [shlexGo.eq_def] at h
    simp only [hc1, hc2, hc3, if_false, if_pos rfl] at h
    exact ih (d :: acc.getD []) l rfl h
  | case9 c cs acc hc1 hc2 hc3 hc4 ih =>
    intro a l _ h
    rw [shlexGo.eq_def] at h
    simp only [hc1, hc2, hc3, hc4, if_false] at h
    exact ih (c :: acc.getD []) l rfl h
  | case10 acc =>
    intro a l _ h
    rw [shlexGo.eq_def] at h
    simp at h
  | case11 cs acc ih =>
    intro a l ha h
    rw [shlexGo.eq_def] at h
    simp only [if_pos rfl] at h
    exact ih a l ha h
  | case12 c cs acc hc ih =>
    intro a l _ h
    rw [shlexGo.eq_def] at h
    simp only [hc, if_false] at h
    exact ih (c :: acc.getD []) l rfl h
  | case13 acc =>
    intro a l _ h
    rw [shlexGo.eq_def] at h
    simp at h
  | case14 cs acc ih =>
    intro a l ha h
    rw [shlexGo.eq_def] at h
    simp only [if_pos rfl] at h
    exact ih a l ha h
  | case15 acc hc =>
    intro a l _ h
    rw [shlexGo.eq_def] at h
    simp [hc] at h
  | case16 acc d ds hd hc ih =>
    intro a l _ h
    rw [shlexGo.eq_def] at h
    simp only [hc, if_false, if_pos rfl, hd, if_true] at h
    exact ih (d :: acc.getD []) l rfl h
  | case17 acc d ds hd hc ih =>
    intro a l _ h
    rw [shlexGo.eq_def] at h
    simp only [hc, hd, if_false, if_pos rfl] at h
    exact ih (d :: '\\' :: acc.getD []) l rfl h
  | case18 c cs acc hc1 hc2 ih =>
    intro a l _ h
    rw [shlexGo.eq_def] at h
    simp only [hc1, hc2, if_false] at h
    exact ih (c :: acc.getD []) l rfl h

theorem shlexGo_none_all_ws : ∀ (mode : LexMode) (cs : List Char) (acc : Option (List Char)),
    shlexGo mode cs acc = .ok [] → mode = .norm → acc = none → ∀ c ∈ cs, shWs c = true := by
  intro mode cs acc
  induction mode, cs, acc using shlexGo.induct with
  | case1 => intro _ _ _ c hc; simp at hc
  | case2 acc => intro h _ _; rw [shlexGo.eq_def] at h; simp at h
  | case3 c0 cs hws ih =>
    intro h _ _ c hc
    rw [shlexGo.eq_def] at h
    simp only [hws, if_true] at h
    rcases List.mem_cons.mp hc with hceq | hmem
    · subst hceq; exact hws
    · exact ih h rfl rfl c hmem
  | case4 c0 cs hws a0 ih => intro _ _ hacc; exact Option.noConfusion hacc
  | case5 cs acc hc ih =>
    intro h _ _
    rw [shlexGo.eq_def] at h
    simp only [hc, if_false, if_pos rfl] at h
    exact absurd rfl (shlexGo_some_ne_nil _ _ _ _ _ rfl h)
  | case6 cs acc hc1 hc2 ih =>
    intro h _ _
    rw [shlexGo.eq_def] at h
    simp only [hc1, hc2, if_false, if_pos rfl] at h
    exact absurd rfl (shlexGo_some_ne_nil _ _ _ _ _ rfl h)
  | case7 acc hc1 hc2 hc3 =>
    intro h _ _
    rw [shlexGo.eq_def] at h
    simp [hc1, hc2, hc3] at h
  | case8 acc d ds hc1 hc2 hc3 ih =>
    intro h _ _
    rw [shlexGo.eq_def] at h
    simp only [hc1, hc2, hc3, if_false, if_pos rfl] at h
    exact absurd rfl (shlexGo_some_ne_nil _ _ _ _ _ rfl h)
  | case9 c cs acc hc1 hc2 hc3 hc4 ih =>
    intro h _ _
    rw [shlexGo.eq_def] at h
    simp only [hc1, hc2, hc3, hc4, if_false] at h
    exact absurd rfl (shlexGo_some_ne_nil _ _ _ _ _ rfl h)
  | case10 acc => intro _ hm; exact LexMode.noConfusion hm
  | case11 cs acc ih => intro _ hm; exact LexMode.noConfusion hm
  | case12 c cs acc hc ih => intro _ hm; exact LexMode.noConfusion hm
  | case13 acc => intro _ hm; exact LexMode.noConfusion hm
  | case14 cs acc ih => intro _ hm; exact LexMode.noConfusion hm
  | case15 acc hc => intro _ hm; exact LexMode.noConfusion hm
  | case16 acc d ds hd hc ih => intro _ hm; exact LexMode.noConfusion hm
  | case17 acc d ds hd hc ih => intro _ hm; exact LexMode.noConfusion hm
  | case18 c cs acc hc1 hc2 ih => intro _ hm; exact LexMode.noConfusion hm

theorem dropWhile_head_false (p : Char → Bool) : ∀ (l : List Char) (c : Char) (rest : List Char),
    l.dropWhile p = c :: rest → p c = false := by
  intro l
  induction l with
  | nil => intro c rest h; simp at h
  | cons x xs ih =>
    intro c rest h
    by_cases hx : p x = true
    · rw [List.dropWhile_cons, if_pos hx] at h
      exact ih c rest h
    · rw [List.dropWhile_cons, if_neg hx] at h
      cases h
      exact Bool.eq_false_iff.mpr hx

theorem pyStrip_has_non_space (s : String) (h : pyStrip s ≠ "") :
    ∃ c ∈ (pyStrip s).data, pyIsSpace c = false := by
  have hdata : (pyStrip s).data =
      ((s.data.dropWhile pyIsSpace).reverse.dropWhile pyIsSpace).reverse := rfl
  cases hr : ((s.data.dropWhile pyIsSpace).reverse.dropWhile pyIsSpace).reverse with
  | nil =>
    exfalso
    apply h
    apply String.ext
    rw [hdata, hr]
  | cons c rest =>
    refine ⟨c, by rw [hdata, hr]; simp, ?_⟩
    have hsplit : s.data.dropWhile pyIsSpace =
        ((s.data.dropWhile pyIsSpace).reverse.dropWhile pyIsSpace).reverse ++
        ((s.data.dropWhile pyIsSpace).reverse.takeWhile pyIsSpace).reverse := by
      conv_lhs => rw [← List.reverse_reverse (s.data.dropWhile pyIsSpace),
        ← List.takeWhile_append_dropWhile (p := pyIsSpace)
          (l := (s.data.dropWhile pyIsSpace).reverse)]
      rw [List.reverse_append]
    rw [hr] at hsplit
    exact dropWhile_head_false pyIsSpace s.data c _ hsplit

theorem shWs_space (c : Char) (h : shWs c = true) : pyIsSpace c = true := by
  simp only [shWs, Bool.or_eq_true, beq_iff_eq] at h
  rcases h with ((h | h) | h) | h <;> simp [pyIsSpace, h]

theorem shlex_split_ok_ne_nil (s : String) (hne : pyStrip s ≠ "") :
    shlex_split (pyStrip s) ≠ .ok ([] : List String) := by
  intro hsp
  obtain ⟨c, hc, hcf⟩ := pyStrip_has_non_space s hne
  have := shlexGo_none_all_ws .norm (pyStrip s).data none hsp rfl rfl c hc
  rw [shWs_space c this] at hcf
  exact Bool.noConfusion hcf

/-- C2: `run` always returns the 4-tuple (it never lets an exception
escape), and any exception a handler raises is converted into a result
with empty stdout, the stderr message `"Error: <message>\n"`, the input
working directory, and the nonzero exit code 1. -/
theorem c2_run_total_and_catch (raw cwd : String) (env : SysEnv) (fs : Node) :
    (run raw cwd env fs).isSome = true ∧
    (∀ cmd args e fs', pyStrip raw ≠ "" →
      shlex_split (pyStrip raw) = .ok (cmd :: args) →
      dispatch cmd args cwd env fs = (.error e, fs') →
      run raw cwd env fs = some (⟨"", "Error: " ++ e.msg ++ "\n", some cwd, 1⟩, fs')) := by
  constructor
  · by_cases h : pyStrip raw = ""
    · simp [run, h]
    · unfold run
      rw [if_neg h]
      cases hsp : shlex_split (pyStrip raw) with
      | error e => simp
      | ok parts =>
        cases parts with
        | nil => exact absurd hsp (shlex_split_ok_ne_nil raw h)
        | cons cmd args =>
          cases hd : dispatch cmd args cwd env fs with
          | mk exc fs' => cases exc <;> simp [hd]
  · intro cmd args e fs' h1 h2 h3
    simp [run, h1, h2, h3]

/-- Witness for C2: `touch` on a directory raises `IsADirectoryError`,
which the dispatcher converts into the generic error result. -/
theorem c2_run_total_and_catch_witness :
    (run "touch /d" "/" envW fsW).isSome = true ∧
    run "touch /d" "/" envW fsW =
      some (⟨"", "Error: " ++ PyError.isADirectory.msg ++ "\n", some "/", 1⟩, fsW) :=
  ⟨(c2_run_total_and_catch "touch /d" "/" envW fsW).1,
   (c2_run_total_and_catch "touch /d" "/" envW fsW).2 "touch" ["/d"] .isADirectory fsW
     (by decide) (by decide) rfl⟩

/-! C4: normalization lemmas for `normpath`. -/

theorem splitChar_ne_nil (sep : Char) : ∀ (cs : List Char), splitChar sep cs ≠ [] := by
  intro cs
  induction cs with
  | nil => simp [splitChar]
  | cons c cs ih =>
    simp only [splitChar]
    split
    · simp
    · split <;> simp

theorem splitChar_cons_eq (sep c : Char) (cs t : List Char) (ts : List (List Char))
    (h : splitChar sep cs = t :: ts) :
    splitChar sep (c :: cs) = if c = sep then [] :: t :: ts else (c :: t) :: ts := by
  simp only [splitChar, h]

theorem splitChar_no_sep (sep : Char) : ∀ (cs : List Char) (t : List Char),
    t ∈ splitChar sep cs → sep ∉ t := by
  intro cs
  induction cs with
  | nil => intro t ht; simp [splitChar] at ht; simp [ht]
  | cons c cs ih =>
    intro t ht
    rcases hsp : splitChar sep cs with _ | ⟨u, us⟩
    · exact absurd hsp (splitChar_ne_nil sep cs)
    · rw [splitChar_cons_eq sep c cs u us hsp] at ht
      by_cases hc : c = sep
      · rw [if_pos hc] at ht
        rcases List.mem_cons.mp ht with rfl | hm
        · simp
        · exact ih t (by rw [hsp]; exact hm)
      · rw [if_neg hc] at ht
        rcases List.mem_cons.mp ht with rfl | hm
        · intro hmem
          rcases List.mem_cons.mp hmem with rfl | hmem'
          · exact hc rfl
          · exact ih u (by rw [hsp]; simp) hmem'
        · exact ih t (by rw [hsp]; simp [hm])

theorem splitChar_single (sep : Char) : ∀ (t : List Char), sep ∉ t → splitChar sep t = [t] := by
  intro t
  induction t with
  | nil => intro _; rfl
  | cons c cs ih =>
    intro h
    simp only [List.mem_cons, not_or] at h
    rw [splitChar_cons_eq sep c cs cs [] (ih h.2)]
    rw [if_neg (fun hh => h.1 hh.symm)]

theorem splitChar_append_sep (sep : Char) : ∀ (a b : List Char), sep ∉ a →
    splitChar sep (a ++ sep :: b) = a :: splitChar sep b := by
  intro a
  induction a with
  | nil =>
    intro b _
    rcases hsp : splitChar sep b with _ | ⟨u, us⟩
    · exact absurd hsp (splitChar_ne_nil sep b)
    · rw [List.nil_append, splitChar_cons_eq sep sep b u us hsp, if_pos rfl, ← hsp]
  | cons c cs ih =>
    intro b h
    simp only [List.mem_cons, not_or] at h
    rcases hsp : splitChar sep (cs ++ sep :: b) with _ | ⟨u, us⟩
    · exact absurd hsp (splitChar_ne_nil sep _)
    · rw [List.cons_append, splitChar_cons_eq sep c _ u us hsp,
        if_neg (fun hh => h.1 hh.symm)]
      rw [ih b h.2] at hsp
      cases hsp
      rfl

theorem joinChar_split (sep : Char) : ∀ (l : List (List Char)), l ≠ [] →
    (∀ t ∈ l, sep ∉ t) → splitChar sep (joinChar sep l) = l := by
  intro l
  induction l with
  | nil => intro h _; exact absurd rfl h
  | cons t ts ih =>
    intro _ hs
    cases ts with
    | nil => exact splitChar_single sep t (hs t (by simp))
    | cons u us =>
      have hjoin : joinChar sep (t :: u :: us) = t ++ sep :: joinChar sep (u :: us) := rfl
      rw [hjoin, splitChar_append_sep sep t _ (hs t (by simp)),
        ih (by simp) (fun x hx => hs x (by simp [hx]))]

theorem splitChar_replicate (k : Nat) (b : List Char) :
    splitChar '/' (List.replicate k '/' ++ b) =
      List.replicate k [] ++ splitChar '/' b := by
  induction k with
  | zero => simp
  | succ k ih =>
    rcases hsp : splitChar '/' (List.replicate k '/' ++ b) with _ | ⟨u, us⟩
    · exact absurd hsp (splitChar_ne_nil '/' _)
    · rw [List.replicate_succ, List.cons_append,
        splitChar_cons_eq '/' '/' _ u us hsp, if_pos rfl, ← hsp, ih,
        List.replicate_succ, List.cons_append]

theorem normFold_nil (s : Bool) (acc : List (List Char)) : normFold s [] acc = acc := rfl

theorem normFold_cons (s : Bool) (comp : List Char) (rest acc : List (List Char)) :
    normFold s (comp :: rest) acc =
      if comp = [] ∨ comp = ['.'] then normFold s rest acc
      else if comp ≠ ['.', '.'] ∨ (s = false ∧ acc = []) ∨ acc.head? = some ['.', '.'] then
        normFold s rest (comp :: acc)
      else
        match acc with
        | [] => normFold s rest []
        | _ :: as => normFold s rest as := rfl

theorem normFold_skip_replicate (s : Bool) (k : Nat) (rest acc : List (List Char)) :
    normFold s (List.replicate k [] ++ rest) acc = normFold s rest acc := by
  induction k with
  | zero => simp
  | succ k ih =>
    rw [List.replicate_succ, List.cons_append, normFold_cons, if_pos (Or.inl rfl), ih]

theorem normFold_mem (s : Bool) : ∀ (comps acc : List (List Char)) (x : List Char),
    x ∈ normFold s comps acc → x ∈ acc ∨ (x ∈ comps ∧ x ≠ [] ∧ x ≠ ['.']) := by
  intro comps
  induction comps with
  | nil => intro acc x hx; rw [normFold_nil] at hx; exact Or.inl hx
  | cons comp rest ih =>
    intro acc x hx
    rw [normFold_cons] at hx
    by_cases h1 : comp = [] ∨ comp = ['.']
    · rw [if_pos h1] at hx
      rcases ih acc x hx with hL | ⟨hm, hne⟩
      · exact Or.inl hL
      · exact Or.inr ⟨List.mem_cons_of_mem _ hm, hne⟩
    · rw [if_neg h1] at hx
      rw [not_or] at h1
      by_cases h2 : comp ≠ ['.', '.'] ∨ (s = false ∧ acc = []) ∨ acc.head? = some ['.', '.']
      · rw [if_pos h2] at hx
        rcases ih (comp :: acc) x hx with hL | ⟨hm, hne⟩
        · rcases List.mem_cons.mp hL with rfl | hL'
          · exact Or.inr ⟨by simp, h1.1, h1.2⟩
          · exact Or.inl hL'
        · exact Or.inr ⟨List.mem_cons_of_mem _ hm, hne⟩
      · rw [if_neg h2] at hx
        cases acc with
        | nil =>
          rcases ih [] x hx with hL | ⟨hm, hne⟩
          · simp at hL
          · exact Or.inr ⟨List.mem_cons_of_mem _ hm, hne⟩
        | cons a as =>
          rcases ih as x hx with hL | ⟨hm, hne⟩
          · exact Or.inl (List.mem_cons_of_mem _ hL)
          · exact Or.inr ⟨List.mem_cons_of_mem _ hm, hne⟩

/-- Invariant of the `normpath` component loop: the (reversed) accumulator
is a block free of `".."` followed by a trailing run of `".."`s, the run
being empty in the absolute-path case. -/
def AccOk (s : Bool) (acc : List (List Char)) : Prop :=
  ∃ r m, acc = r ++ List.replicate m ['.', '.'] ∧ ['.', '.'] ∉ r ∧ (s = true → m = 0)

theorem accOk_nil (s : Bool) : AccOk s [] :=
  ⟨[], 0, by simp, by simp, fun _ => rfl⟩

theorem normFold_accOk (s : Bool) : ∀ (comps acc : List (List Char)),
    AccOk s acc → AccOk s (normFold s comps acc) := by
  intro comps
  induction comps with
  | nil => intro acc h; rw [normFold_nil]; exact h
  | cons comp rest ih =>
    intro acc hacc
    rw [normFold_cons]
    by_cases h1 : comp = [] ∨ comp = ['.']
    · rw [if_pos h1]; exact ih acc hacc
    · rw [if_neg h1]
      by_cases h2 : comp ≠ ['.', '.'] ∨ (s = false ∧ acc = []) ∨ acc.head? = some ['.', '.']
      · rw [if_pos h2]
        apply ih
        obtain ⟨r, m, heq, hnr, hm⟩ := hacc
        by_cases hdd : comp = ['.', '.']
        · subst hdd
          rcases h2 with h2a | ⟨hsf, haccnil⟩ | hhead
        
          · exact absurd rfl h2a
          · subst haccnil
            rcases List.append_eq_nil.mp heq.symm with ⟨rfl, hrep⟩
            exact ⟨[], 1, by simp, by simp, fun hs => absurd hs (by simp [hsf])⟩
          · cases r with
            | nil =>
              simp only [List.nil_append] at heq
              subst heq
              refine ⟨[], m + 1, by simp [List.replicate_succ], by simp, fun hs => ?_⟩
              exfalso
              rw [hm hs] at hhead
              simp at hhead
            | cons x r' =>
              exfalso
              rw [heq] at hhead
              simp only [List.cons_append, List.head?_cons, Option.some.injEq] at hhead
              exact hnr (by simp [← hhead])
        · refine ⟨comp :: r, m, by rw [heq]; rfl, ?_, hm⟩
          simp only [List.mem_cons, not_or]
          exact ⟨fun hh => hdd hh.symm, hnr⟩
      · rw [if_neg h2]
        push_neg at h2
        obtain ⟨hdd, hnotnil, hhead⟩ := h2
        cases acc with
        | nil => exact ih [] (accOk_nil s)
        | cons a as =>
          apply ih
          obtain ⟨r, m, heq, hnr, hm⟩ := hacc
          cases r with
          | nil =>
            exfalso
            simp only [List.nil_append] at heq
            cases m with
            | zero => simp at heq
            | succ m' =>
              rw [List.replicate_succ] at heq
              cases heq
              exact hhead rfl
          | cons x r' =>
            simp only [List.cons_append] at heq
            cases heq
            exact ⟨r', m, rfl, fun hmem => hnr (List.mem_cons_of_mem _ hmem), hm⟩

/-- Structure of a finished `normpath` component list: a leading run of
`".."`s (empty for absolute paths) followed by a `".."`-free block. -/
def GoodList (s : Bool) (l : List (List Char)) : Prop :=
  ∃ m r, l = List.replicate m ['.', '.'] ++ r ∧ ['.', '.'] ∉ r ∧ (s = true → m = 0)

theorem accOk_reverse (s : Bool) (acc : List (List Char)) (h : AccOk s acc) :
    GoodList s acc.reverse := by
  obtain ⟨r, m, heq, hnr, hm⟩ := h
  refine ⟨m, r.reverse, ?_, by simp [hnr], hm⟩
  rw [heq, List.reverse_append, List.reverse_replicate]

theorem normFold_push_all (s : Bool) : ∀ (l acc : List (List Char)),
    (∀ x ∈ l, x ≠ [] ∧ x ≠ ['.'] ∧ x ≠ ['.', '.']) →
    normFold s l acc = l.reverse ++ acc := by
  intro l
  induction l with
  | nil => intro acc _; simp [normFold_nil]
  | cons x xs ih =>
    intro acc h
    obtain ⟨hx1, hx2, hx3⟩ := h x (by simp)
    rw [normFold_cons, if_neg (by simp [hx1, hx2]), if_pos (Or.inl hx3),
      ih (x :: acc) (fun y hy => h y (by simp [hy]))]
    simp

theorem normFold_dd_run (s : Bool) (hs : s = false) : ∀ (m : Nat) (rest acc : List (List Char))
    (j : Nat), acc = List.replicate j ['.', '.'] →
    normFold s (List.replicate m ['.', '.'] ++ rest) acc =
      normFold s rest (List.replicate (m + j) ['.', '.']) := by
  intro m
  induction m with
  | zero => intro rest acc j hacc; simp [hacc]
  | succ m ih =>
    intro rest acc j hacc
    rw [List.replicate_succ, List.cons_append, normFold_cons,
      if_neg (by simp), if_pos ?hpush]
    case hpush =>
      cases j with
      | zero => exact Or.inr (Or.inl ⟨hs, by simp [hacc]⟩)
      | succ j' => exact Or.inr (Or.inr (by simp [hacc, List.replicate_succ]))
    rw [hacc, show (['.', '.'] :: List.replicate j ['.', '.']) =
      List.replicate (j + 1) ['.', '.'] from by rw [List.replicate_succ]]
    rw [ih rest _ (j + 1) rfl, show m + (j + 1) = m + 1 + j from by omega]

theorem normFold_id (s : Bool) (l : List (List Char)) (hg : GoodList s l)
    (helem : ∀ x ∈ l, x ≠ [] ∧ x ≠ ['.']) :
    (normFold s l []).reverse = l := by
  obtain ⟨m, r, rfl, hnr, hm⟩ := hg
  have hr : ∀ x ∈ r, x ≠ [] ∧ x ≠ ['.'] ∧ x ≠ ['.', '.'] := by
    intro x hx
    obtain ⟨h1, h2⟩ := helem x (by simp [hx])
    exact ⟨h1, h2, fun hdd => hnr (hdd ▸ hx)⟩
  cases hsv : s with
  | true =>
    rw [hm hsv]
    simp only [List.replicate_zero, List.nil_append]
    rw [normFold_push_all true r [] hr]
    simp
  | false =>
    rw [normFold_dd_run false rfl m r [] 0 (by simp)]
    rw [normFold_push_all false r _ hr]
    simp [List.reverse_append, List.reverse_replicate]

theorem joinChar_nil (sep : Char) : joinChar sep [] = [] := rfl

theorem slashCount3_le (cs : List Char) : slashCount3 cs ≤ 2 := by
  simp only [slashCount3]
  split
  · split <;> norm_num
  · norm_num

theorem slashCount3_append (k : Nat) (hk : k ≤ 2) (c0 : Char) (hc0 : c0 ≠ '/') (y : List Char) :
    slashCount3 (List.replicate k '/' ++ c0 :: y) = k := by
  interval_cases k <;>
    simp [slashCount3, List.replicate_succ, List.replicate_zero, List.take, hc0]

theorem slashCount3_replicate (k : Nat) (h1 : 1 ≤ k) (h2 : k ≤ 2) :
    slashCount3 (List.replicate k '/') = k := by
  interval_cases k <;> decide

theorem isabs_cons (p : String) (h : isabs p = true) : ∃ y, p.data = '/' :: y := by
  unfold isabs at h
  cases hd : p.data with
  | nil => rw [hd] at h; simp at h
  | cons c y =>
    rw [hd] at h
    simp only [List.take, decide_eq_true_eq, List.cons.injEq, and_true] at h
    exact ⟨y, by rw [h]⟩

/-- Unfolding of `normpath` on a nonempty input. -/
theorem normpath_eq (p : String) (hp : ¬ p = "") :
    normpath p =
      if List.replicate (slashCount3 p.data) '/' ++
          joinChar '/' ((normFold (decide (0 < slashCount3 p.data))
            (splitChar '/' p.data) []).reverse) = [] then "."
      else String.mk (List.replicate (slashCount3 p.data) '/' ++
        joinChar '/' ((normFold (decide (0 < slashCount3 p.data))
          (splitChar '/' p.data) []).reverse)) := by
  simp only [normpath, hp, if_false]

/-- A string assembled from a leading-slash count and a clean component
list is a fixed point of `normpath`. -/
theorem normpath_roundtrip_core (k : Nat) (hkle : k ≤ 2) (nc : List (List Char))
    (hmem : ∀ x ∈ nc, x ≠ [] ∧ x ≠ ['.'] ∧ '/' ∉ x)
    (hgood : GoodList (decide (0 < k)) nc)
    (hres : ¬ List.replicate k '/' ++ joinChar '/' nc = []) :
    normpath (String.mk (List.replicate k '/' ++ joinChar '/' nc)) =
      String.mk (List.replicate k '/' ++ joinChar '/' nc) := by
  have hmkne : ¬ (String.mk (List.replicate k '/' ++ joinChar '/' nc) : String) = "" := by
    intro hcon
    exact hres (by simpa using congrArg String.data hcon)
  rw [normpath_eq _ hmkne]
  have hdata : (String.mk (List.replicate k '/' ++ joinChar '/' nc)).data =
      List.replicate k '/' ++ joinChar '/' nc := rfl
  rw [hdata]
  cases nc with
  | nil =>
    rw [joinChar_nil, List.append_nil] at hres ⊢
    have hk1 : 1 ≤ k := by
      rcases Nat.eq_zero_or_pos k with h0 | h1
      · exact absurd (by simp [h0]) hres
      · exact h1
    have hsc : slashCount3 (List.replicate k '/') = k := slashCount3_replicate k hk1 hkle
    rw [hsc]
    have hsplit : splitChar '/' (List.replicate k '/') = List.replicate (k + 1) [] := by
      have h := splitChar_replicate k []
      rw [List.append_nil] at h
      rw [h, show splitChar '/' [] = [[]] from rfl, List.replicate_succ']
    rw [hsplit]
    have hfold : normFold (decide (0 < k)) (List.replicate (k + 1) ([] : List Char)) [] = [] := by
      rw [← List.append_nil (List.replicate (k + 1) ([] : List Char)),
        normFold_skip_replicate, normFold_nil]
    rw [hfold, List.reverse_nil, joinChar_nil, List.append_nil]
    rw [if_neg hres]
  | cons t ts =>
    obtain ⟨h1t, h2t, h3t⟩ := hmem t (by simp)
    obtain ⟨c0, t', rfl⟩ := List.exists_cons_of_ne_nil h1t
    have hc0 : c0 ≠ '/' := fun h => h3t (by simp [h])
    have hjoin : ∃ X, joinChar '/' ((c0 :: t') :: ts) = c0 :: (t' ++ X) := by
      cases ts with
      | nil => exact ⟨[], by simp [joinChar]⟩
      | cons u us => exact ⟨'/' :: joinChar '/' (u :: us), by simp [joinChar]⟩
    obtain ⟨X, hX⟩ := hjoin
    have hsc : slashCount3 (List.replicate k '/' ++ joinChar '/' ((c0 :: t') :: ts)) = k := by
      rw [hX]
      exact slashCount3_append k hkle c0 hc0 _
    have hsplit : splitChar '/' (List.replicate k '/' ++ joinChar '/' ((c0 :: t') :: ts)) =
        List.replicate k [] ++ (c0 :: t') :: ts := by
      rw [splitChar_replicate k _]
      congr 1
      exact joinChar_split '/' ((c0 :: t') :: ts) (by simp)
        (fun x hx => (hmem x hx).2.2)
    rw [hsc, hsplit, normFold_skip_replicate]
    rw [normFold_id (decide (0 < k)) ((c0 :: t') :: ts) hgood
      (fun x hx => ⟨(hmem x hx).1, (hmem x hx).2.1⟩)]
    rw [if_neg hres]

/-- `posixpath.normpath` is idempotent: its output is normalized. -/
theorem normpath_idem (p : String) : normpath (normpath p) = normpath p := by
  by_cases hp : p = ""
  · subst hp; decide
  · rw [normpath_eq p hp]
    by_cases hres : List.replicate (slashCount3 p.data) '/' ++
        joinChar '/' ((normFold (decide (0 < slashCount3 p.data))
          (splitChar '/' p.data) []).reverse) = []
    · rw [if_pos hres]; decide
    · rw [if_neg hres]
      refine normpath_roundtrip_core (slashCount3 p.data) (slashCount3_le p.data) _ ?_ ?_ hres
      · intro x hx
        rw [List.mem_reverse] at hx
        rcases normFold_mem _ _ [] x hx with h0 | ⟨hm, h1, h2⟩
        · simp at h0
        · exact ⟨h1, h2, splitChar_no_sep '/' p.data x hm⟩
      · exact accOk_reverse _ _ (normFold_accOk _ _ [] (accOk_nil _))

/-- `normpath` preserves absoluteness. -/
theorem isabs_normpath (p : String) (h : isabs p = true) : isabs (normpath p) = true := by
  obtain ⟨y, hy⟩ := isabs_cons p h
  have hp : ¬ p = "" := by
    intro hcon
    subst hcon
    simp at hy
  rw [normpath_eq p hp]
  have hk : 0 < slashCount3 p.data := by
    rw [hy]
    simp only [slashCount3]
    rw [if_pos (by simp [List.take])]
    split <;> norm_num
  obtain ⟨k', hk'⟩ := Nat.exists_eq_add_of_lt hk
  have hksucc : slashCount3 p.data = k' + 1 := by omega
  rw [hksucc, List.replicate_succ]
  rw [if_neg (by simp)]
  unfold isabs
  simp [List.take]

/-- `posixpath.join` preserves absoluteness of its first argument. -/
theorem isabs_joinpath (a b : String) (h : isabs a = true) : isabs (joinpath a b) = true := by
  unfold joinpath
  by_cases hb : isabs b = true
  · rw [if_pos hb]; exact hb
  · rw [if_neg hb]
    obtain ⟨y, hy⟩ := isabs_cons a h
    split
    · unfold isabs
      rw [show (String.mk (a.data ++ b.data)).data = a.data ++ b.data from rfl, hy]
      simp [List.take]
    · unfold isabs
      rw [show (String.mk (a.data ++ '/' :: b.data)).data = a.data ++ '/' :: b.data from rfl, hy]
      simp [List.take]

/-- `_path_resolve` always yields an absolute path when the working
directory is absolute. -/
theorem pathResolve_isAbs (p cwd : String) (h : isabs cwd = true) :
    isabs (_path_resolve p cwd) = true := by
  unfold _path_resolve
  by_cases hp : isabs p = true
  · rw [if_pos hp]; exact isabs_normpath p hp
  · rw [if_neg hp]; exact isabs_normpath _ (isabs_joinpath cwd p h)

/-- `_path_resolve` always yields a normalized path. -/
theorem pathResolve_normalized (p cwd : String) :
    normpath (_path_resolve p cwd) = _path_resolve p cwd := by
  unfold _path_resolve
  split <;> exact normpath_idem _

/-! C4: every handler echoes the working directory, except `cd` (which
returns a checked directory) and the system queries (which return the
`None` sentinel with exit 0). -/

theorem mkdirLoop_cons (a : String) (as : List String) (cwd : String) (fs : Node) :
    mkdirLoop (a :: as) cwd fs =
      match makedirs fs (_path_resolve a cwd) false with
      | .ok fs1 => mkdirLoop as cwd fs1
      | .error .fileExists =>
        (.ok ⟨"", "mkdir: cannot create directory '" ++ a ++ "': File exists\n", some cwd, 1⟩, fs)
      | .error e => (.error e, fs) := rfl

theorem mkdirLoop_cwd : ∀ (args : List String) (cwd : String) (fs : Node)
    (exc : Except PyError RunResult) (fs' : Node) (res : RunResult),
    mkdirLoop args cwd fs = (exc, fs') → exc = .ok res → res.cwd = some cwd := by
  intro args
  induction args with
  | nil =>
    intro cwd fs exc fs' res h hres
    subst hres
    injection h with ha hb
    injection ha with hc
    subst hc
    rfl
  | cons a as ih =>
    intro cwd fs exc fs' res h hres
    subst hres
    rw [mkdirLoop_cons] at h
    repeat' split at h
    all_goals first
      | (injection h with ha hb; injection ha with hc; subst hc; rfl)
      | (injection h with ha hb; exact Except.noConfusion ha)
      | (exact ih _ _ _ _ _ h rfl)

theorem rmLoop_cons (rec : Bool) (a : String) (as : List String) (cwd : String) (fs : Node) :
    rmLoop rec (a :: as) cwd fs =
      (if ¬ pyExists fs (_path_resolve a cwd) then
         (.ok ⟨"", "rm: cannot remove '" ++ a ++ "': No such file or directory\n", some cwd, 1⟩, fs)
       else if pyIsDir fs (_path_resolve a cwd) && !rec then
         (.ok ⟨"", "rm: cannot remove '" ++ a ++ "': Is a directory\n", some cwd, 1⟩, fs)
       else
         match removePath fs (pathComps (_path_resolve a cwd)) with
         | some fs1 => rmLoop rec as cwd fs1
         | none => (.error (.other "Device or resource busy"), fs)) := rfl

theorem rmLoop_cwd (rec : Bool) : ∀ (args : List String) (cwd : String) (fs : Node)
    (exc : Except PyError RunResult) (fs' : Node) (res : RunResult),
    rmLoop rec args cwd fs = (exc, fs') → exc = .ok res → res.cwd = some cwd := by
  intro args
  induction args with
  | nil =>
    intro cwd fs exc fs' res h hres
    subst hres
    injection h with ha hb
    injection ha with hc
    subst hc
    rfl
  | cons a as ih =>
    intro cwd fs exc fs' res h hres
    subst hres
    rw [rmLoop_cons] at h
    repeat' split at h
    all_goals first
      | (injection h with ha hb; injection ha with hc; subst hc; rfl)
      | (injection h with ha hb; exact Except.noConfusion ha)
      | (exact ih _ _ _ _ _ h rfl)

theorem rmdirLoop_cons (a : String) (as : List String) (cwd : String) (fs : Node) :
    rmdirLoop (a :: as) cwd fs =
      (if ¬ pyExists fs (_path_resolve a cwd) then
         (.ok ⟨"", "rmdir: failed to remove '" ++ a ++ "': No such file or directory\n", some cwd, 1⟩, fs)
       else if ¬ pyIsDir fs (_path_resolve a cwd) then
         (.ok ⟨"", "rmdir: failed to remove '" ++ a ++ "': Not a directory\n", some cwd, 1⟩, fs)
       else
         match lookupN fs (pathComps (_path_resolve a cwd)) with
         | some (.dir []) =>
           match removePath fs (pathComps (_path_resolve a cwd)) with
           | some fs1 => rmdirLoop as cwd fs1
           | none =>
             (.ok ⟨"", "rmdir: failed to remove '" ++ a ++ "': Directory not empty\n", some cwd, 1⟩, fs)
         | _ =>
           (.ok ⟨"", "rmdir: failed to remove '" ++ a ++ "': Directory not empty\n", some cwd, 1⟩, fs)) := rfl

theorem rmdirLoop_cwd : ∀ (args : List String) (cwd : String) (fs : Node)
    (exc : Except PyError RunResult) (fs' : Node) (res : RunResult),
    rmdirLoop args cwd fs = (exc, fs') → exc = .ok res → res.cwd = some cwd := by
  intro args
  induction args with
  | nil =>
    intro cwd fs exc fs' res h hres
    subst hres
    injection h with ha hb
    injection ha with hc
    subst hc
    rfl
  | cons a as ih =>
    intro cwd fs exc fs' res h hres
    subst hres
    rw [rmdirLoop_cons] at h
    repeat' split at h
    all_goals first
      | (injection h with ha hb; injection ha with hc; subst hc; rfl)
      | (injection h with ha hb; exact Except.noConfusion ha)
      | (exact ih _ _ _ _ _ h rfl)

theorem touchLoop_cons (a : String) (as : List String) (cwd : String) (fs : Node) :
    touchLoop (a :: as) cwd fs =
      (match (if dirname (_path_resolve a cwd) != "" &&
                !pyExists fs (dirname (_path_resolve a cwd)) then
                makedirs fs (dirname (_path_resolve a cwd)) true else .ok fs) with
       | .error e => (.error e, fs)
       | .ok fs1 =>
         match openAppend fs1 (_path_resolve a cwd) "" with
         | .error e => (.error e, fs1)
         | .ok fs2 => touchLoop as cwd fs2) := rfl

theorem touchLoop_cwd : ∀ (args : List String) (cwd : String) (fs : Node)
    (exc : Except PyError RunResult) (fs' : Node) (res : RunResult),
    touchLoop args cwd fs = (exc, fs') → exc = .ok res → res.cwd = some cwd := by
  intro args
  induction args with
  | nil =>
    intro cwd fs exc fs' res h hres
    subst hres
    injection h with ha hb
    injection ha with hc
    subst hc
    rfl
  | cons a as ih =>
    intro cwd fs exc fs' res h hres
    subst hres
    rw [touchLoop_cons] at h
    repeat' split at h
    all_goals first
      | (injection h with ha hb; injection ha with hc; subst hc; rfl)
      | (injection h with ha hb; exact Except.noConfusion ha)
      | (exact ih _ _ _ _ _ h rfl)

theorem catLoop_cons (a : String) (as : List String) (cwd : String) (fs : Node)
    (acc : List String) :
    catLoop (a :: as) cwd fs acc =
      (if ¬ pyExists fs (_path_resolve a cwd) then
         ⟨"", "cat: " ++ a ++ ": No such file or directory\n", some cwd, 1⟩
       else if pyIsDir fs (_path_resolve a cwd) then
         ⟨"", "cat: " ++ a ++ ": Is a directory\n", some cwd, 1⟩
       else catLoop as cwd fs ((readFileN fs (_path_resolve a cwd)).getD "" :: acc)) := rfl

theorem catLoop_cwd : ∀ (args : List String) (cwd : String) (fs : Node) (acc : List String)
    (res : RunResult), catLoop args cwd fs acc = res → res.cwd = some cwd := by
  intro args
  induction args with
  | nil =>
    intro cwd fs acc res h
    subst h
    rfl
  | cons a as ih =>
    intro cwd fs acc res h
    rw [catLoop_cons] at h
    repeat' split at h
    all_goals first
      | (subst h; rfl)
      | (exact ih _ _ _ _ h)

theorem mvLoop_cons (s : String) (rest : List String) (dest cwd : String) (fs : Node) :
    mvLoop (s :: rest) dest cwd fs =
      (if ¬ pyExists fs s then
         (⟨"", "mv: cannot stat '" ++ s ++ "': No such file or directory\n", some cwd, 1⟩, fs)
       else
         match (if pyIsDir fs dest then shutilMove fs s (joinpath dest (basename s))
                else shutilMove fs s dest) with
         | .ok fs1 => mvLoop rest dest cwd fs1
         | .error e => (⟨"", "mv error: " ++ e.msg ++ "\n", some cwd, 1⟩, fs)) := rfl

theorem mvLoop_cwd : ∀ (srcs : List String) (dest cwd : String) (fs : Node)
    (res : RunResult) (fs' : Node),
    mvLoop srcs dest cwd fs = (res, fs') → res.cwd = some cwd := by
  intro srcs
  induction srcs with
  | nil =>
    intro dest cwd fs res fs' h
    injection h with ha hb
    subst ha
    rfl
  | cons s rest ih =>
    intro dest cwd fs res fs' h
    rw [mvLoop_cons] at h
    repeat' split at h
    all_goals first
      | (injection h with ha hb; subst ha; rfl)
      | (exact ih _ _ _ _ _ h)

theorem cpLoop_cons (rec : Bool) (s : String) (rest : List String) (dest cwd : String)
    (fs : Node) :
    cpLoop rec (s :: rest) dest cwd fs =
      (if ¬ pyExists fs s then
         (⟨"", "cp: cannot stat '" ++ s ++ "': No such file or directory\n", some cwd, 1⟩, fs)
       else if pyIsDir fs s then
         if ¬ rec then
           (⟨"", "cp: -r not specified; omitting directory '" ++ s ++ "'\n", some cwd, 1⟩, fs)
         else
           match copytreeN fs s (joinpath dest (basename s)) with
           | .ok fs1 => cpLoop rec rest dest cwd fs1
           | .error e => (⟨"", "cp error: " ++ e.msg ++ "\n", some cwd, 1⟩, fs)
       else
         match (if pyIsDir fs dest then copy2N fs s (joinpath dest (basename s))
                else copy2N fs s dest) with
         | .ok fs1 => cpLoop rec rest dest cwd fs1
         | .error e => (⟨"", "cp error: " ++ e.msg ++ "\n", some cwd, 1⟩, fs)) := rfl

theorem cpLoop_cwd (rec : Bool) : ∀ (srcs : List String) (dest cwd : String) (fs : Node)
    (res : RunResult) (fs' : Node),
    cpLoop rec srcs dest cwd fs = (res, fs') → res.cwd = some cwd := by
  intro srcs
  induction srcs with
  | nil =>
    intro dest cwd fs res fs' h
    injection h with ha hb
    subst ha
    rfl
  | cons s rest ih =>
    intro dest cwd fs res fs' h
    rw [cpLoop_cons] at h
    repeat' split at h
    all_goals first
      | (injection h with ha hb; subst ha; rfl)
      | (exact ih _ _ _ _ _ h)

theorem ls_cwd (args : List String) (cwd : String) (fs : Node)
    (exc : Except PyError RunResult) (fs' : Node) (res : RunResult)
    (h : _ls args cwd fs = (exc, fs')) (hres : exc = .ok res) : res.cwd = some cwd := by
  subst hres
  simp only [_ls] at h
  repeat' split at h
  all_goals (injection h with ha hb; injection ha with hc; subst hc; rfl)

theorem mkdir_cwd (args : List String) (cwd : String) (fs : Node)
    (exc : Except PyError RunResult) (fs' : Node) (res : RunResult)
    (h : _mkdir args cwd fs = (exc, fs')) (hres : exc = .ok res) : res.cwd = some cwd := by
  subst hres
  simp only [_mkdir] at h
  split at h
  · injection h with ha hb; injection ha with hc; subst hc; rfl
  · exact mkdirLoop_cwd _ _ _ _ _ _ h rfl

theorem rm_cwd (args : List String) (cwd : String) (fs : Node)
    (exc : Except PyError RunResult) (fs' : Node) (res : RunResult)
    (h : _rm args cwd fs = (exc, fs')) (hres : exc = .ok res) : res.cwd = some cwd := by
  subst hres
  simp only [_rm] at h
  repeat' split at h
  all_goals first
    | (injection h with ha hb; injection ha with hc; subst hc; rfl)
    | (exact rmLoop_cwd _ _ _ _ _ _ _ h rfl)

theorem rmdir_cwd (args : List String) (cwd : String) (fs : Node)
    (exc : Except PyError RunResult) (fs' : Node) (res : RunResult)
    (h : _rmdir args cwd fs = (exc, fs')) (hres : exc = .ok res) : res.cwd = some cwd := by
  subst hres
  simp only [_rmdir] at h
  split at h
  · injection h with ha hb; injection ha with hc; subst hc; rfl
  · exact rmdirLoop_cwd _ _ _ _ _ _ h rfl

theorem cat_cwd (args : List String) (cwd : String) (fs : Node)
    (exc : Except PyError RunResult) (fs' : Node) (res : RunResult)
    (h : _cat args cwd fs = (exc, fs')) (hres : exc = .ok res) : res.cwd = some cwd := by
  subst hres
  simp only [_cat] at h
  split at h
  · injection h with ha hb; injection ha with hc; subst hc; rfl
  · injection h with ha hb
    injection ha with hc
    subst hc
    exact catLoop_cwd _ _ _ _ _ rfl

theorem touch_cwd (args : List String) (cwd : String) (fs : Node)
    (exc : Except PyError RunResult) (fs' : Node) (res : RunResult)
    (h : _touch args cwd fs = (exc, fs')) (hres : exc = .ok res) : res.cwd = some cwd := by
  subst hres
  simp only [_touch] at h
  split at h
  · injection h with ha hb; injection ha with hc; subst hc; rfl
  · exact touchLoop_cwd _ _ _ _ _ _ h rfl

theorem mv_cwd (args : List String) (cwd : String) (fs : Node)
    (exc : Except PyError RunResult) (fs' : Node) (res : RunResult)
    (h : _mv args cwd fs = (exc, fs')) (hres : exc = .ok res) : res.cwd = some cwd := by
  subst hres
  simp only [_mv] at h
  repeat' split at h
  all_goals first
    | (injection h with ha hb; injection ha with hc; subst hc; rfl)
    | (injection h with ha hb; injection ha with hc; subst hc;
        exact mvLoop_cwd _ _ _ _ _ _ rfl)

theorem cp_cwd (args : List String) (cwd : String) (fs : Node)
    (exc : Except PyError RunResult) (fs' : Node) (res : RunResult)
    (h : _cp args cwd fs = (exc, fs')) (hres : exc = .ok res) : res.cwd = some cwd := by
  subst hres
  simp only [_cp] at h
  repeat' split at h
  all_goals first
    | (injection h with ha hb; injection ha with hc; subst hc; rfl)
    | (injection h with ha hb; injection ha with hc; subst hc;
        exact cpLoop_cwd _ _ _ _ _ _ _ rfl)

theorem echo_cwd (args : List String) (cwd : String) (fs : Node)
    (exc : Except PyError RunResult) (fs' : Node) (res : RunResult)
    (h : _echo args cwd fs = (exc, fs')) (hres : exc = .ok res) : res.cwd = some cwd := by
  subst hres
  simp only [_echo] at h
  repeat' split at h
  all_goals (injection h with ha hb; injection ha with hc; subst hc; rfl)

theorem head_cwd (args : List String) (cwd : String) (fs : Node)
    (exc : Except PyError RunResult) (fs' : Node) (res : RunResult)
    (h : _head args cwd fs = (exc, fs')) (hres : exc = .ok res) : res.cwd = some cwd := by
  subst hres
  simp only [_head] at h
  repeat' split at h
  all_goals (injection h with ha hb; injection ha with hc; subst hc; rfl)

theorem tail_cwd (args : List String) (cwd : String) (fs : Node)
    (exc : Except PyError RunResult) (fs' : Node) (res : RunResult)
    (h : _tail args cwd fs = (exc, fs')) (hres : exc = .ok res) : res.cwd = some cwd := by
  subst hres
  simp only [_tail] at h
  repeat' split at h
  all_goals (injection h with ha hb; injection ha with hc; subst hc; rfl)

theorem cd_spec (args : List String) (cwd home : String) (fs : Node)
    (exc : Except PyError RunResult) (fs' : Node)
    (h : _cd args cwd home fs = (exc, fs')) :
    fs' = fs ∧ ∀ res, exc = .ok res →
      (res.cwd = some cwd ∧ res.exit = 1) ∨
      (res.exit = 0 ∧ ∃ d, res.cwd = some d ∧ pyIsDir fs d = true ∧
        (d = home ∨ ∃ a, d = _path_resolve a cwd)) := by
  cases args with
  | nil =>
    simp only [_cd] at h
    split at h
    · injection h with ha hb
      subst hb
      exact ⟨rfl, fun res hres => by rw [← ha] at hres; exact Except.noConfusion hres⟩
    · split at h
      · injection h with ha hb
        subst hb
        exact ⟨rfl, fun res hres => by rw [← ha] at hres; exact Except.noConfusion hres⟩
      · rename_i hex hdir
        injection h with ha hb
        subst hb
        refine ⟨rfl, fun res hres => ?_⟩
        rw [← ha] at hres
        injection hres with hr
        subst hr
        exact Or.inr ⟨rfl, home, rfl, not_not.mp hdir, Or.inl rfl⟩
  | cons a as =>
    simp only [_cd] at h
    split at h
    · injection h with ha hb
      subst hb
      refine ⟨rfl, fun res hres => ?_⟩
      rw [← ha] at hres
      injection hres with hr
      subst hr
      exact Or.inl ⟨rfl, rfl⟩
    · split at h
      · injection h with ha hb
        subst hb
        refine ⟨rfl, fun res hres => ?_⟩
        rw [← ha] at hres
        injection hres with hr
        subst hr
        exact Or.inl ⟨rfl, rfl⟩
      · rename_i hex hdir
        injection h with ha hb
        subst hb
        refine ⟨rfl, fun res hres => ?_⟩
        rw [← ha] at hres
        injection hres with hr
        subst hr
        exact Or.inr ⟨rfl, _path_resolve a cwd, rfl, not_not.mp hdir, Or.inr ⟨a, rfl⟩⟩

theorem dispatch_cwd (cmd : String) (args : List String) (cwd : String) (env : SysEnv)
    (fs : Node) (exc : Except PyError RunResult) (fs' : Node) (res : RunResult)
    (h : dispatch cmd args cwd env fs = (exc, fs')) (hres : exc = .ok res) :
    res.cwd = some cwd ∨ (res.cwd = none ∧ res.exit = 0) ∨
    (cmd = "cd" ∧ fs' = fs ∧
      ((res.cwd = some cwd ∧ res.exit = 1) ∨
       (res.exit = 0 ∧ ∃ d, res.cwd = some d ∧ pyIsDir fs d = true ∧
         (d = env.home ∨ ∃ a, d = _path_resolve a cwd)))) := by
  subst hres
  unfold dispatch at h
  by_cases h1 : cmd = "pwd"
  · rw [if_pos h1] at h
    injection h with ha hb; injection ha with hc; subst hc; exact Or.inl rfl
  · rw [if_neg h1] at h
    by_cases h2 : cmd = "ls"
    · rw [if_pos h2] at h
      exact Or.inl (ls_cwd _ _ _ _ _ _ h rfl)
    · rw [if_neg h2] at h
      by_cases h3 : cmd = "cd"
      · rw [if_pos h3] at h
        exact Or.inr (Or.inr ⟨h3, (cd_spec _ _ _ _ _ _ h).1, (cd_spec _ _ _ _ _ _ h).2 res rfl⟩)
      · rw [if_neg h3] at h
        by_cases h4 : cmd = "mkdir"
        · rw [if_pos h4] at h
          exact Or.inl (mkdir_cwd _ _ _ _ _ _ h rfl)
        · rw [if_neg h4] at h
          by_cases h5 : cmd = "rm"
          · rw [if_pos h5] at h
            exact Or.inl (rm_cwd _ _ _ _ _ _ h rfl)
          · rw [if_neg h5] at h
            by_cases h6 : cmd = "rmdir"
            · rw [if_pos h6] at h
              exact Or.inl (rmdir_cwd _ _ _ _ _ _ h rfl)
            · rw [if_neg h6] at h
              by_cases h7 : cmd = "cat"
              · rw [if_pos h7] at h
                exact Or.inl (cat_cwd _ _ _ _ _ _ h rfl)
              · rw [if_neg h7] at h
                by_cases h8 : cmd = "touch"
                · rw [if_pos h8] at h
                  exact Or.inl (touch_cwd _ _ _ _ _ _ h rfl)
                · rw [if_neg h8] at h
                  by_cases h9 : cmd = "mv"
                  · rw [if_pos h9] at h
                    exact Or.inl (mv_cwd _ _ _ _ _ _ h rfl)
                  · rw [if_neg h9] at h
                    by_cases h10 : cmd = "cp"
                    · rw [if_pos h10] at h
                      exact Or.inl (cp_cwd _ _ _ _ _ _ h rfl)
                    · rw [if_neg h10] at h
                      by_cases h11 : cmd = "echo"
                      · rw [if_pos h11] at h
                        exact Or.inl (echo_cwd _ _ _ _ _ _ h rfl)
                      · rw [if_neg h11] at h
                        by_cases h12 : cmd = "cpu"
                        · rw [if_pos h12] at h
                          injection h with ha hb; injection ha with hc; subst hc; exact Or.inr (Or.inl ⟨rfl, rfl⟩)
                        · rw [if_neg h12] at h
                          by_cases h13 : cmd = "mem"
                          · rw [if_pos h13] at h
                            injection h with ha hb; injection ha with hc; subst hc; exact Or.inr (Or.inl ⟨rfl, rfl⟩)
                          · rw [if_neg h13] at h
                            by_cases h14 : cmd = "ps"
                            · rw [if_pos h14] at h
                              injection h with ha hb; injection ha with hc; subst hc; exact Or.inr (Or.inl ⟨rfl, rfl⟩)
                            · rw [if_neg h14] at h
                              by_cases h15 : cmd = "whoami"
                              · rw [if_pos h15] at h
                                injection h with ha hb; injection ha with hc; subst hc; exact Or.inl rfl
                              · rw [if_neg h15] at h
                                by_cases h16 : cmd = "date"
                                · rw [if_pos h16] at h
                                  injection h with ha hb; injection ha with hc; subst hc; exact Or.inl rfl
                                · rw [if_neg h16] at h
                                  by_cases h17 : cmd = "uptime"
                                  · rw [if_pos h17] at h
                                    injection h with ha hb; injection ha with hc; subst hc; exact Or.inl rfl
                                  · rw [if_neg h17] at h
                                    by_cases h18 : cmd = "head"
                                    · rw [if_pos h18] at h
                                      exact Or.inl (head_cwd _ _ _ _ _ _ h rfl)
                                    · rw [if_neg h18] at h
                                      by_cases h19 : cmd = "tail"
                                      · rw [if_pos h19] at h
                                        exact Or.inl (tail_cwd _ _ _ _ _ _ h rfl)
                                      · rw [if_neg h19] at h
                                        by_cases h20 : cmd = "clear"
                                        · rw [if_pos h20] at h
                                          injection h with ha hb; injection ha with hc; subst hc; exact Or.inl rfl
                                        · rw [if_neg h20] at h
                                          by_cases h21 : cmd = "help" ∨ cmd = "--help" ∨ cmd = "-h"
                                          · rw [if_pos h21] at h
                                            injection h with ha hb; injection ha with hc; subst hc; exact Or.inl rfl
                                          · rw [if_neg h21] at h
                                            injection h with ha hb; injection ha with hc; subst hc; exact Or.inl rfl

/-- C4: the working directory returned by `run` is echoed back unchanged
in every error case; whenever it comes back changed (which only `cd` can
do), it is an absolute, normalized path that is a directory of the
returned filesystem — assuming the supplied working directory and the
home directory are themselves absolute and normalized. -/
theorem c4_cwd_invariant (raw cwd : String) (env : SysEnv) (fs : Node)
    (hcwd1 : isabs cwd = true) (hcwd2 : normpath cwd = cwd)
    (hh1 : isabs env.home = true) (hh2 : normpath env.home = env.home)
    (r : RunResult) (fs' : Node)
    (hrun : run raw cwd env fs = some (r, fs')) :
    (r.exit ≠ 0 → r.cwd = some cwd) ∧
    (∀ d, r.cwd = some d → d ≠ cwd →
      isabs d = true ∧ normpath d = d ∧ pyIsDir fs' d = true ∧
      ∃ rest, shlex_split (pyStrip raw) = .ok ("cd" :: rest)) := by
  simp only [run] at hrun
  by_cases hstrip : pyStrip raw = ""
  · rw [if_pos hstrip] at hrun
    injection hrun with hp
    injection hp with h1 h2
    subst h1
    refine ⟨fun _ => rfl, fun d hd hne => ?_⟩
    injection hd with hd'
    exact absurd hd'.symm hne
  · rw [if_neg hstrip] at hrun
    cases hsp : shlex_split (pyStrip raw) with
    | error e =>
      rw [hsp] at hrun
      injection hrun with hp
      injection hp with h1 h2
      subst h1
      refine ⟨fun _ => rfl, fun d hd hne => ?_⟩
      injection hd with hd'
      exact absurd hd'.symm hne
    | ok parts =>
      rw [hsp] at hrun
      cases parts with
      | nil => exact Option.noConfusion hrun
      | cons cmd args =>
        have hrun2 : (match dispatch cmd args cwd env fs with
          | (Except.ok res, fs2) => some (res, fs2)
          | (Except.error e, fs2) =>
            some ((⟨"", "Error: " ++ e.msg ++ "\n", some cwd, 1⟩ : RunResult), fs2)) =
            some (r, fs') := hrun
        cases hd : dispatch cmd args cwd env fs with
        | mk exc fs2 =>
          rw [hd] at hrun2
          cases exc with
          | error e =>
            injection hrun2 with hp
            injection hp with h1 h2
            subst h1
            refine ⟨fun _ => rfl, fun d hdq hne => ?_⟩
            injection hdq with hd'
            exact absurd hd'.symm hne
          | ok res =>
            injection hrun2 with hp
            injection hp with h1 h2
            subst h1
            subst h2
            rcases dispatch_cwd cmd args cwd env fs _ _ res hd rfl with
              hsome | ⟨hnone, hexit0⟩ | ⟨hcd, hfs, hcases⟩
            · refine ⟨fun _ => hsome, fun d hdq hne => ?_⟩
              rw [hsome] at hdq
              injection hdq with hd'
              exact absurd hd'.symm hne
            · refine ⟨fun hne => absurd hexit0 hne, fun d hdq hne => ?_⟩
              rw [hnone] at hdq
              exact Option.noConfusion hdq
            · rcases hcases with ⟨hc1, _⟩ | ⟨hexit0, d0, hc, hdir, hor⟩
              · refine ⟨fun _ => hc1, fun d hdq hne => ?_⟩
                rw [hc1] at hdq
                injection hdq with hd'
                exact absurd hd'.symm hne
              · refine ⟨fun hne => absurd hexit0 hne, fun d hdq hne => ?_⟩
                rw [hc] at hdq
                injection hdq with hd'
                subst hd'
                refine ⟨?_, ?_, ?_, ⟨args, by rw [hcd]⟩⟩
                · rcases hor with rfl | ⟨a, rfl⟩
                  · exact hh1
                  · exact pathResolve_isAbs a cwd hcwd1
                · rcases hor with rfl | ⟨a, rfl⟩
                  · exact hh2
                  · exact pathResolve_normalized a cwd
                · rw [hfs]
                  exact hdir

/-- Witness for C4: `cd src` from `/` moves to the absolute, normalized,
existing directory `/src`. -/
theorem c4_cwd_invariant_witness :
    isabs "/src" = true ∧ normpath "/src" = "/src" ∧ pyIsDir fsW "/src" = true ∧
    ∃ rest, shlex_split (pyStrip "cd src") = .ok ("cd" :: rest) := by
  have h := c4_cwd_invariant "cd src" "/" envW fsW (by decide) (by decide) (by decide)
    (by decide) ⟨"", "", some "/src", 0⟩ fsW rfl
  obtain ⟨h1, h2, h3, h4⟩ := h.2 "/src" rfl (by decide)
  exact ⟨h1, h2, h3, h4⟩
